import Mathlib

/-!
Verification development for the timestamp utilities of
`passage_of_time_mcp.py` (functions `parse_standard_timestamp`,
`current_datetime`, `time_difference`, `time_since`, `parse_timestamp`,
`add_time`, `timestamp_context`, `format_duration`).

Embedding conventions:
* Python `datetime` values are modelled by the `DateTime` structure of naive
  calendar fields; the calendar arithmetic (`toOrdinal`, `ofDays`, ...)
  mirrors CPython's proleptic-Gregorian `datetime` module
  (`_days_before_year`, `_days_before_month`, `toordinal`, `fromordinal`).
* `datetime.strptime` with the two fixed formats used by the source is
  modelled by run-based parsers (`strptimeFull`, `strptimeDate`) that
  reproduce CPython `_strptime`'s regular expressions:
  `%Y` = four digits, `%m` = `1[0-2]|0[1-9]|[1-9]`,
  `%d` = `3[01]|[12]\d|0[1-9]|[1-9]`, `%H` = `2[0-3]|[0-1]\d|\d`,
  `%M` = `[0-5]\d|\d`, `%S` = `6[0-1]|[0-5]\d|\d`, and a literal space in
  the format string matching a nonempty whitespace run; the whole string
  must be consumed, and the `datetime` constructor afterwards enforces
  year >= 1, day <= days-in-month and second <= 59.  Because every field
  is delimited by a non-digit character (or the end of the string), the
  regex backtracking semantics coincide with taking the maximal digit run
  for each field and checking its length/value, which is what the
  definitions below do.
* Whitespace (`str.strip`, `\s`) is the ASCII whitespace set.
* `pytz` timezones are modelled by the abstract `Timezone` structure: an
  offset function on naive datetimes (the behaviour of
  `tz.localize(dt)` with the default `is_dst=False`), an offset function
  on UTC instants (for `astimezone`), and an abbreviation (`%Z`).
* The wall clock (`datetime.now(tz)`) is an explicit `now : DateTime`
  parameter holding the current local fields in the relevant timezone.
* Python floats are modelled exactly: durations and second counts are
  integers (`Int`), the one division producing `requested_unit` is a
  rational (`Rat`).
-/

/-- Naive datetime fields, as in a Python `datetime` without `tzinfo`
(microseconds are always zero in this program: `strptime` with the two
formats above never sets them and all arithmetic in scope keeps them zero
for integral durations). -/
structure DateTime where
  year : Nat
  month : Nat
  day : Nat
  hour : Nat
  minute : Nat
  second : Nat
deriving DecidableEq, Repr

/-- Python `calendar`/`datetime` leap-year rule (`_is_leap`). -/
def isLeap (y : Nat) : Bool :=
  (y % 4 == 0 && y % 100 != 0) || (y % 400 == 0)

/-- `_DAYS_IN_MONTH`, parameterized by the leap flag. -/
def daysInMonthB (leap : Bool) : Nat → Nat
  | 1 => 31
  | 2 => if leap then 29 else 28
  | 3 => 31
  | 4 => 30
  | 5 => 31
  | 6 => 30
  | 7 => 31
  | 8 => 31
  | 9 => 30
  | 10 => 31
  | 11 => 30
  | 12 => 31
  | _ => 0

/-- `_days_in_month(year, month)`. -/
def daysInMonth (y m : Nat) : Nat := daysInMonthB (isLeap y) m

/-- `_DAYS_BEFORE_MONTH`, the cumulative-day table of a non-leap year. -/
def daysBeforeMonthTable : Nat → Nat
  | 1 => 0
  | 2 => 31
  | 3 => 59
  | 4 => 90
  | 5 => 120
  | 6 => 151
  | 7 => 181
  | 8 => 212
  | 9 => 243
  | 10 => 273
  | 11 => 304
  | 12 => 334
  | _ => 400

/-- `_days_before_month(year, month)`, parameterized by the leap flag. -/
def daysBeforeMonthB (leap : Bool) (m : Nat) : Nat :=
  daysBeforeMonthTable m + (if 3 ≤ m ∧ leap then 1 else 0)

/-- `_days_before_year(year)`: days before January 1st of `year`. -/
def daysBeforeYear (y : Nat) : Nat :=
  365 * (y - 1) + (y - 1) / 4 - (y - 1) / 100 + (y - 1) / 400

/-- `date.toordinal()`: day number with `0001-01-01` as day 1. -/
def toOrdinal (y m d : Nat) : Nat :=
  daysBeforeYear y + daysBeforeMonthB (isLeap y) m + d

def daysInYear (y : Nat) : Nat := if isLeap y then 366 else 365

/-- Find the year containing day-of-epoch `n` (1-based), starting the search
at year `y`; fuelled structural recursion (the fuel argument only has to
dominate the number of search steps, and `n` itself always does since a
year has at least 365 days). -/
def yearFromAux : Nat → Nat → Nat → Nat × Nat
  | 0, y, n => (y, n)
  | fuel + 1, y, n =>
    if n ≤ daysInYear y then (y, n) else yearFromAux fuel (y + 1) (n - daysInYear y)

/-- Find the month containing day-of-year `n` (1-based), starting at month
`m`; twelve steps of fuel suffice. -/
def monthFromAux : Nat → Bool → Nat → Nat → Nat × Nat
  | 0, _, m, n => (m, n)
  | fuel + 1, leap, m, n =>
    if n ≤ daysInMonthB leap m then (m, n)
    else monthFromAux fuel leap (m + 1) (n - daysInMonthB leap m)

/-- `date.fromordinal(n)` for `n >= 1`. -/
def ofDays (n : Nat) : Nat × Nat × Nat :=
  let yd := yearFromAux n 1 n
  let md := monthFromAux 12 (isLeap yd.1) 1 yd.2
  (yd.1, md.1, md.2)

/-- Seconds since `0001-01-01 00:00:00` of a naive datetime. -/
def toSecs (d : DateTime) : Nat :=
  (toOrdinal d.year d.month d.day - 1) * 86400 +
    3600 * d.hour + 60 * d.minute + d.second

/-- Naive datetime of a count of seconds since `0001-01-01 00:00:00`. -/
def ofSecs (n : Nat) : DateTime :=
  let ymd := ofDays (n / 86400 + 1)
  ⟨ymd.1, ymd.2.1, ymd.2.2, n % 86400 / 3600, n % 3600 / 60, n % 60⟩

/-- The `datetime` range check: ordinals of supported dates (years 1-9999)
are `1 .. 3652059`, so supported second counts are `0 ≤ n < maxSecs`. -/
def maxSecs : Nat := 3652059 * 86400

/-- Validity of the fields of a `DateTime`, exactly the constraints the
Python `datetime` constructor enforces (with `MAXYEAR = 9999`). -/
def ValidB (d : DateTime) : Bool :=
  1 ≤ d.year && d.year ≤ 9999 &&
  1 ≤ d.month && d.month ≤ 12 &&
  1 ≤ d.day && d.day ≤ daysInMonth d.year d.month &&
  d.hour ≤ 23 && d.minute ≤ 59 && d.second ≤ 59

/-- `date.weekday()`: 0 = Monday. -/
def weekdayNum (y m d : Nat) : Nat := (toOrdinal y m d + 6) % 7

/-- `strftime("%A")` day names indexed by `weekdayNum`. -/
def weekdayName (w : Nat) : String :=
  match w with
  | 0 => "Monday"
  | 1 => "Tuesday"
  | 2 => "Wednesday"
  | 3 => "Thursday"
  | 4 => "Friday"
  | 5 => "Saturday"
  | _ => "Sunday"

/-- `strftime("%B")` month names. -/
def monthName (m : Nat) : String :=
  match m with
  | 1 => "January"
  | 2 => "February"
  | 3 => "March"
  | 4 => "April"
  | 5 => "May"
  | 6 => "June"
  | 7 => "July"
  | 8 => "August"
  | 9 => "September"
  | 10 => "October"
  | 11 => "November"
  | _ => "December"

/-- ASCII whitespace, the character class of `str.strip()` and of `\s` in
the `_strptime` regex (restricted to ASCII input). -/
def isWS (c : Char) : Bool :=
  c == ' ' || c == '\t' || c == '\n' || c == '\r' || c == '\x0b' || c == '\x0c'

def isDigit (c : Char) : Bool := '0' ≤ c && c ≤ '9'

/-- Numeric value of a decimal digit character. -/
def digVal (c : Char) : Nat := c.toNat - 48

/-- Decimal value of a digit string (most significant first). -/
def toVal (l : List Char) : Nat := l.foldl (fun a c => 10 * a + digVal c) 0

/-- Character of a decimal digit value. -/
def digitChar : Nat → Char
  | 0 => '0'
  | 1 => '1'
  | 2 => '2'
  | 3 => '3'
  | 4 => '4'
  | 5 => '5'
  | 6 => '6'
  | 7 => '7'
  | 8 => '8'
  | _ => '9'

/-- Decimal digit characters of `n`, most significant first (fuelled). -/
def decDigitsAux : Nat → Nat → List Char
  | 0, _ => []
  | fuel + 1, n =>
    if n < 10 then [digitChar n]
    else decDigitsAux fuel (n / 10) ++ [digitChar (n % 10)]

def decDigits (n : Nat) : List Char := decDigitsAux (n + 1) n

/-- `str(n)` for a natural number. -/
def natStr (n : Nat) : String := String.mk (decDigits n)

/-- `str(i)` for an integer. -/
def intStr (i : Int) : String :=
  if i < 0 then "-" ++ natStr i.natAbs else natStr i.toNat

/-- Zero-pad the decimal digits of `n` to width `w` (as `"%0wd"`). -/
def padNum (w n : Nat) : List Char :=
  List.replicate (w - (decDigits n).length) '0' ++ decDigits n

/-- `strftime("%Y-%m-%d %H:%M:%S")`. -/
def printFull (d : DateTime) : String :=
  String.mk (padNum 4 d.year ++ '-' :: padNum 2 d.month ++ '-' :: padNum 2 d.day ++
    ' ' :: padNum 2 d.hour ++ ':' :: padNum 2 d.minute ++ ':' :: padNum 2 d.second)

/-- `strftime("%Y-%m-%d")`. -/
def printDate (d : DateTime) : String :=
  String.mk (padNum 4 d.year ++ '-' :: padNum 2 d.month ++ '-' :: padNum 2 d.day)

/-- `str.strip()` (on character lists). -/
def stripChars (l : List Char) : List Char :=
  ((l.dropWhile isWS).reverse.dropWhile isWS).reverse

/-- Maximal digit run at the front: `(run, rest)`. -/
def readRun (l : List Char) : List Char × List Char :=
  (l.takeWhile isDigit, l.dropWhile isDigit)

/-- Maximal whitespace run at the front: `(run, rest)`. -/
def readWS (l : List Char) : List Char × List Char :=
  (l.takeWhile isWS, l.dropWhile isWS)

/-- `%m` = `1[0-2]|0[1-9]|[1-9]` applied to a maximal digit run: the run
must be fully consumed before the following delimiter, so it matches iff
it is two digits valued 1-12 or one digit valued 1-9. -/
def monthRunOk (r : List Char) : Bool :=
  (r.length == 2 && 1 ≤ toVal r && toVal r ≤ 12) || (r.length == 1 && 1 ≤ toVal r)

/-- `%d` = `3[01]|[12]\d|0[1-9]|[1-9]` on a maximal digit run. -/
def dayRunOk (r : List Char) : Bool :=
  (r.length == 2 && 1 ≤ toVal r && toVal r ≤ 31) || (r.length == 1 && 1 ≤ toVal r)

/-- `%H` = `2[0-3]|[0-1]\d|\d` on a maximal digit run. -/
def hourRunOk (r : List Char) : Bool :=
  (r.length == 2 && toVal r ≤ 23) || r.length == 1

/-- `%M` = `[0-5]\d|\d` on a maximal digit run. -/
def minuteRunOk (r : List Char) : Bool :=
  (r.length == 2 && toVal r ≤ 59) || r.length == 1

/-- `%S` = `6[0-1]|[0-5]\d|\d` on a maximal digit run (values 60 and 61
pass the regex and are then rejected by the `datetime` constructor). -/
def secondRunOk (r : List Char) : Bool :=
  (r.length == 2 && toVal r ≤ 61) || r.length == 1

/-- The checks of the `datetime` constructor that the regex has not already
ensured: `MINYEAR <= year`, day within the month, second <= 59.  (The
regex caps the year at 4 digits, the month at 12, the hour at 23 and the
minute at 59 on its own.) -/
def ctorOk (y m d s : Nat) : Bool :=
  1 ≤ y && d ≤ daysInMonth y m && s ≤ 59

/-- Parse `%Y-%m-%d` at the front of `l`; returns the fields and the
unconsumed rest.  No constructor checks yet. -/
def parseDateRaw (l : List Char) : Option ((Nat × Nat × Nat) × List Char) :=
  let yr := readRun l
  if yr.1.length == 4 then
    match yr.2 with
    | '-' :: r2 =>
      let mr := readRun r2
      if monthRunOk mr.1 then
        match mr.2 with
        | '-' :: r4 =>
          let dr := readRun r4
          if dayRunOk dr.1 then some ((toVal yr.1, toVal mr.1, toVal dr.1), dr.2)
          else none
        | _ => none
      else none
    | _ => none
  else none

/-- Parse `%H:%M:%S` at the front of `l`. -/
def parseTimeRaw (l : List Char) : Option ((Nat × Nat × Nat) × List Char) :=
  let hr := readRun l
  if hourRunOk hr.1 then
    match hr.2 with
    | ':' :: r2 =>
      let mr := readRun r2
      if minuteRunOk mr.1 then
        match mr.2 with
        | ':' :: r4 =>
          let sr := readRun r4
          if secondRunOk sr.1 then some ((toVal hr.1, toVal mr.1, toVal sr.1), sr.2)
          else none
        | _ => none
      else none
    | _ => none
  else none

/-- `datetime.strptime(s, "%Y-%m-%d %H:%M:%S")` (`none` for `ValueError`,
whether from the regex mismatch, the full-match check or the constructor). -/
def strptimeFull (l : List Char) : Option DateTime :=
  match parseDateRaw l with
  | some (ymd, r) =>
    let ws := readWS r
    if ws.1.length == 0 then none
    else
      match parseTimeRaw ws.2 with
      | some (hms, rest) =>
        if rest == [] && ctorOk ymd.1 ymd.2.1 ymd.2.2 hms.2.2 then
          some ⟨ymd.1, ymd.2.1, ymd.2.2, hms.1, hms.2.1, hms.2.2⟩
        else none
      | none => none
  | none => none

/-- `datetime.strptime(s, "%Y-%m-%d")`. -/
def strptimeDate (l : List Char) : Option DateTime :=
  match parseDateRaw l with
  | some (ymd, rest) =>
    if rest == [] && ctorOk ymd.1 ymd.2.1 ymd.2.2 0 then
      some ⟨ymd.1, ymd.2.1, ymd.2.2, 0, 0, 0⟩
    else none
  | none => none

/-- Split `l` at the last occurrence of `' '` (the separator of
`str.rsplit(' ', _)`): `some (before, after)` with `after` space-free. -/
def cutLastSpace (l : List Char) : Option (List Char × List Char) :=
  let r := l.reverse
  let suf := r.takeWhile (fun c => !(c == ' '))
  match r.dropWhile (fun c => !(c == ' ')) with
  | [] => none
  | _ :: pre => some (pre.reverse, suf.reverse)

/-- `s.rsplit(' ', 2)` (1, 2 or 3 parts). -/
def rsplit2 (l : List Char) : List (List Char) :=
  match cutLastSpace l with
  | none => [l]
  | some (p, last) =>
    match cutLastSpace p with
    | none => [p, last]
    | some (q, mid) => [q, mid, last]

/-- A resolved timezone.  `off` is the fixed UTC offset (seconds east) that
`tz.localize(dt)` (pytz, default `is_dst=False`) attaches to a naive local
datetime; `offAtUtc` is the offset in force at a given UTC instant (used by
`astimezone`); `tzname` is the `%Z` abbreviation attached by `localize`. -/
structure Timezone where
  off : DateTime → Int
  offAtUtc : Int → Int
  tzname : DateTime → String

/-- An aware datetime: naive local fields plus the fixed offset and zone
abbreviation its (pytz) `tzinfo` carries. -/
structure Aware where
  naive : DateTime
  offsetSecs : Int
  zoneAbbrev : String
deriving DecidableEq, Repr

/-- `tz.localize(dt)` (pytz, `is_dst=False`). -/
def localize (tz : Timezone) (d : DateTime) : Aware :=
  ⟨d, tz.off d, tz.tzname d⟩

/-- The absolute instant (seconds since `0001-01-01 00:00:00` UTC) an aware
datetime denotes; differences of aware datetimes compare these. -/
def utcSecs (a : Aware) : Int := (toSecs a.naive : Int) - a.offsetSecs

/-- UTC: constant offset 0. -/
def utcTz : Timezone := ⟨fun _ => 0, fun _ => 0, fun _ => "UTC"⟩

/-- Modelled from the IANA timezone database as exposed by pytz:
`America/New_York` during 2024.  DST runs from the second Sunday of March
(2024-03-10) to the first Sunday of November (2024-11-03).  pytz
`localize(..., is_dst=False)` maps a naive local time to EDT (UTC-4) iff
it is at or after 03:00 on the spring-forward day and strictly before
01:00 on the fall-back day; times in the 02:00-03:00 spring gap and the
ambiguous 01:00-02:00 fall hour both get EST (UTC-5), pytz's documented
`is_dst=False` behaviour.  Only valid for naive datetimes in 2024, which
is all this development instantiates it at. -/
def nyIsDst (d : DateTime) : Bool :=
  toSecs ⟨2024, 3, 10, 3, 0, 0⟩ ≤ toSecs d && toSecs d < toSecs ⟨2024, 11, 3, 1, 0, 0⟩

/-- See `nyIsDst`; the UTC-side DST test for `America/New_York` in 2024
(transitions at 2024-03-10 07:00 UTC and 2024-11-03 06:00 UTC). -/
def nyIsDstUtc (u : Int) : Bool :=
  (toSecs ⟨2024, 3, 10, 7, 0, 0⟩ : Int) ≤ u && u < (toSecs ⟨2024, 11, 3, 6, 0, 0⟩ : Int)

/-- `pytz.timezone("America/New_York")`, modelled for 2024 (see `nyIsDst`). -/
def nyTz2024 : Timezone :=
  ⟨fun d => if nyIsDst d then -14400 else -18000,
   fun u => if nyIsDstUtc u then -14400 else -18000,
   fun d => if nyIsDst d then "EDT" else "EST"⟩

/-- A concrete timezone database for witnesses: resolves `"UTC"` and
`"America/New_York"`, nothing else. -/
def db0 : String → Option Timezone := fun n =>
  if n == "UTC" then some utcTz
  else if n == "America/New_York" then some nyTz2024
  else none

/-- The two error kinds of `parse_standard_timestamp`: `ValueError` with
its message (grammar failure) and `pytz.exceptions.UnknownTimeZoneError`
with the unresolvable name. -/
inductive PTError where
  | invalidFormat (msg : String)
  | unknownTimezone (tzname : String)
deriving DecidableEq, Repr

/-- The `ValueError` message raised at the end of
`parse_standard_timestamp` (source lines 62-66); note it interpolates the
stripped string. -/
def invalidMsg (t : List Char) : String :=
  "Invalid timestamp format: '" ++ String.mk t ++
    "'. Expected format: 'YYYY-MM-DD HH:MM:SS' or 'YYYY-MM-DD'. " ++
    "Examples: '2024-01-15 14:30:00' or '2024-01-15'"

/-- `parse_standard_timestamp(timestamp_str, timezone)` (source lines
24-66): resolve the timezone, strip, try the full format, the date-only
format, then the trailing-abbreviation variant via `rsplit(' ', 2)`, else
raise the `ValueError` above. -/
def parse_standard_timestamp (db : String → Option Timezone)
    (timestamp_str : String) (timezone : String) : Except PTError Aware :=
  match db timezone with
  | none => .error (.unknownTimezone timezone)
  | some tz =>
    let t := stripChars timestamp_str.data
    match strptimeFull t with
    | some dt => .ok (localize tz dt)
    | none =>
      match strptimeDate t with
      | some dt => .ok (localize tz dt)
      | none =>
        match rsplit2 t with
        | [p0, p1, p2] =>
          if p2.length ≤ 4 then
            match strptimeFull (p0 ++ ' ' :: p1) with
            | some dt => .ok (localize tz dt)
            | none => .error (.invalidFormat (invalidMsg t))
          else .error (.invalidFormat (invalidMsg t))
        | _ => .error (.invalidFormat (invalidMsg t))

/-- `current_datetime(timezone)` (source lines 69-86). -/
def current_datetime (now : DateTime) (db : String → Option Timezone)
    (timezone : String) : String :=
  match db timezone with
  | none =>
    "Error: Unknown timezone '" ++ timezone ++
      "'. Please use a valid timezone name like 'UTC', 'US/Pacific', or 'Europe/London'."
  | some tz => printFull now ++ " " ++ tz.tzname now

/-- `", ".join` / `" ".join`. -/
def joinSep (sep : String) : List String → String
  | [] => ""
  | [x] => x
  | x :: xs => x ++ sep ++ joinSep sep xs

/-- `f"{n} {u}{'s' if n != 1 else ''}"`. -/
def pluralize (n : Nat) (u : String) : String :=
  natStr n ++ " " ++ u ++ (if n != 1 then "s" else "")

/-- The inner `format_timedelta` of `time_difference` (source lines
124-140), applied to the (integral) absolute second count. -/
def format_timedelta (seconds : Nat) : String :=
  let days := seconds / 86400
  let hours := seconds % 86400 / 3600
  let minutes := seconds % 3600 / 60
  let secs := seconds % 60
  let parts :=
    (if days > 0 then [pluralize days "day"] else []) ++
    (if hours > 0 then [pluralize hours "hour"] else []) ++
    (if minutes > 0 then [pluralize minutes "minute"] else [])
  let parts := if secs > 0 || parts.isEmpty then parts ++ [pluralize secs "second"] else parts
  joinSep ", " parts

/-- Result dictionary of `time_difference`; absent keys are `none`. -/
structure DiffResult where
  error : Option String
  seconds : Int
  formatted : String
  is_negative : Bool
  requested_unit : Option Rat
deriving DecidableEq, Repr

/-- The `unit_conversions` dict of `time_difference` (source lines 154-159);
`none` models the `KeyError` an unexpected unit would raise. -/
def unitConvS : String → Option Nat
  | "seconds" => some 1
  | "minutes" => some 60
  | "hours" => some 3600
  | "days" => some 86400
  | _ => none

/-- `time_difference(timestamp1, timestamp2, unit, timezone)` (source lines
89-177).  A `ValueError` from parsing is reported as-is; the
`UnknownTimeZoneError` (a `KeyError` subclass, not a `ValueError`) and the
`KeyError` of an unknown unit land in the generic `except Exception`
branch, whose message is `"Unexpected error: " + str(e)` with `str` of a
`KeyError` rendering the quoted key. -/
def time_difference (db : String → Option Timezone)
    (timestamp1 timestamp2 : String) (unit : String) (timezone : String) : DiffResult :=
  match parse_standard_timestamp db timestamp1 timezone with
  | .error (.invalidFormat m) => ⟨some m, 0, "Error parsing timestamps", false, none⟩
  | .error (.unknownTimezone n) =>
    ⟨some ("Unexpected error: '" ++ n ++ "'"), 0, "Error parsing timestamps", false, none⟩
  | .ok dt1 =>
    match parse_standard_timestamp db timestamp2 timezone with
    | .error (.invalidFormat m) => ⟨some m, 0, "Error parsing timestamps", false, none⟩
    | .error (.unknownTimezone n) =>
      ⟨some ("Unexpected error: '" ++ n ++ "'"), 0, "Error parsing timestamps", false, none⟩
    | .ok dt2 =>
      let total := utcSecs dt2 - utcSecs dt1
      let is_neg := total < 0
      let formatted0 := format_timedelta total.natAbs
      let formatted := if is_neg then "-" ++ formatted0 else formatted0
      if unit == "auto" then ⟨none, total, formatted, is_neg, none⟩
      else
        match unitConvS unit with
        | some c => ⟨none, total, formatted, is_neg, some ((total : Rat) / (c : Rat))⟩
        | none =>
          ⟨some ("Unexpected error: '" ++ unit ++ "'"), 0, "Error parsing timestamps", false, none⟩

/-- Result dictionary of `time_since`. -/
structure SinceResult where
  error : Option String
  seconds : Int
  formatted : String
  context : String
deriving DecidableEq, Repr

/-- `time_since(timestamp, timezone)` (source lines 180-264): resolve the
timezone, format "now", delegate to `time_difference`, propagate its error
if any, re-parse the timestamp, and derive the contextual label by
thresholding the absolute difference (note the 30-day `"this month"`
bucket before the final `"a while ago"`). -/
def time_since (now : DateTime) (db : String → Option Timezone)
    (timestamp : String) (timezone : String) : SinceResult :=
  match db timezone with
  | none => ⟨some ("Unexpected error: '" ++ timezone ++ "'"), 0,
      "Error calculating time since", "unknown"⟩
  | some _ =>
    let now_str := printFull now
    let diff := time_difference db timestamp now_str "auto" timezone
    match diff.error with
    | some e => ⟨some e, 0, "Error calculating time since", "unknown"⟩
    | none =>
      let seconds := diff.seconds
      match parse_standard_timestamp db timestamp timezone with
      | .error (.invalidFormat m) => ⟨some m, 0, "Error calculating time since", "unknown"⟩
      | .error (.unknownTimezone n) =>
        ⟨some ("Unexpected error: '" ++ n ++ "'"), 0, "Error calculating time since", "unknown"⟩
      | .ok dt =>
        let a := seconds.natAbs
        let context :=
          if seconds < 0 then "in the future"
          else if a < 60 then "just now"
          else if a < 3600 then "earlier"
          else if a < 86400 then
            if dt.naive.year == now.year && dt.naive.month == now.month &&
                dt.naive.day == now.day then "earlier today" else "yesterday"
          else if a < 172800 then "yesterday"
          else if a < 604800 then "this week"
          else if a < 2592000 then "this month"
          else "a while ago"
        let formatted := diff.formatted ++ (if seconds ≥ 0 then " ago" else " from now")
        ⟨none, seconds, formatted, context⟩

/-- Result dictionary of `add_time`. -/
structure AddResult where
  error : Option String
  result : String
  iso : String
  description : String
deriving DecidableEq, Repr

/-- The unit dispatch of `add_time` (source lines 367-378), in seconds;
`none` models the explicit `raise ValueError(f"Invalid unit: {unit}")`. -/
def unitSecsAdd : String → Option Nat
  | "seconds" => some 1
  | "minutes" => some 60
  | "hours" => some 3600
  | "days" => some 86400
  | "weeks" => some 604800
  | _ => none

/-- `lstrip("0")`. -/
def lstripZeros (l : List Char) : List Char := l.dropWhile (fun c => c == '0')

/-- `strftime("%I:%M %p")`. -/
def time12 (d : DateTime) : String :=
  String.mk (padNum 2 ((d.hour + 11) % 12 + 1) ++ ':' :: padNum 2 d.minute) ++
    (if d.hour < 12 then " AM" else " PM")

/-- `strftime("%B %d, %Y")`. -/
def longDate (d : DateTime) : String :=
  monthName d.month ++ " " ++ String.mk (padNum 2 d.day) ++ ", " ++
    String.mk (padNum 4 d.year)

/-- `strftime("%H:%M:%S")`. -/
def printTimeOnly (d : DateTime) : String :=
  String.mk (padNum 2 d.hour ++ ':' :: padNum 2 d.minute ++ ':' :: padNum 2 d.second)

/-- `datetime.isoformat()` of an aware datetime with zero microseconds and
a whole-minute UTC offset (pytz offsets are whole minutes). -/
def printIso (d : DateTime) (off : Int) : String :=
  printDate d ++ "T" ++ printTimeOnly d ++ (if off < 0 then "-" else "+") ++
    String.mk (padNum 2 (off.natAbs / 3600) ++ ':' :: padNum 2 (off.natAbs % 3600 / 60))

/-- `add_time(timestamp, duration, unit, timezone)` (source lines 336-428).
`dt + delta` is Python's exact timedelta arithmetic on the naive fields
(the pytz `tzinfo` is carried along unnormalized, so the ISO offset is the
one `localize` attached to the *input*); a result outside years 1-9999
raises `OverflowError("date value out of range")`, which the generic
`except Exception` turns into an error payload.  Date-only inputs are
detected by `":" not in timestamp` on the original argument and printed
back without a time part. -/
def add_time (now : DateTime) (db : String → Option Timezone)
    (timestamp : String) (duration : Int) (unit : String) (timezone : String) : AddResult :=
  match db timezone with
  | none => ⟨some ("Unexpected error: '" ++ timezone ++ "'"),
      "Error adding time", "", "Error calculating result"⟩
  | some _ =>
    match parse_standard_timestamp db timestamp timezone with
    | .error (.invalidFormat m) => ⟨some m, "Error adding time", "", "Error calculating result"⟩
    | .error (.unknownTimezone n) => ⟨some ("Unexpected error: '" ++ n ++ "'"),
        "Error adding time", "", "Error calculating result"⟩
    | .ok dt =>
      let is_date_only := !(timestamp.data.contains ':')
      match unitSecsAdd unit with
      | none => ⟨some ("Invalid unit: " ++ unit), "Error adding time", "", "Error calculating result"⟩
      | some us =>
        let n : Int := (toSecs dt.naive : Int) + duration * (us : Int)
        if 0 ≤ n && n < (maxSecs : Int) then
          let r := ofSecs n.toNat
          let days_diff : Int :=
            (toOrdinal r.year r.month r.day : Int) - (toOrdinal now.year now.month now.day : Int)
          let day_desc :=
            if days_diff == 0 then "today"
            else if days_diff == 1 then "tomorrow"
            else if days_diff == -1 then "yesterday"
            else if 1 < days_diff && days_diff ≤ 7 then
              "next " ++ weekdayName (weekdayNum r.year r.month r.day)
            else if days_diff < -1 && -7 ≤ days_diff then
              "last " ++ weekdayName (weekdayNum r.year r.month r.day)
            else longDate r
          let time_desc := String.mk (lstripZeros (time12 r).data)
          let description := if !is_date_only then day_desc ++ " at " ++ time_desc else day_desc
          let result_str := if is_date_only then printDate r else printFull r
          ⟨none, result_str, printIso r dt.offsetSecs, description⟩
        else ⟨some "Unexpected error: date value out of range",
          "Error adding time", "", "Error calculating result"⟩

/-- Result dictionary of `timestamp_context`. -/
structure CtxResult where
  error : Option String
  time_of_day : String
  day_of_week : String
  is_weekend : Bool
  is_business_hours : Bool
  hour_24 : Nat
  typical_activity : String
  relative_day : Option String
deriving DecidableEq, Repr

/-- `timestamp_context(timestamp, timezone)` (source lines 431-539). -/
def timestamp_context (now : DateTime) (db : String → Option Timezone)
    (timestamp : String) (timezone : String) : CtxResult :=
  match db timezone with
  | none => ⟨some ("Unexpected error: '" ++ timezone ++ "'"),
      "unknown", "", false, false, 0, "unknown", none⟩
  | some _ =>
    match parse_standard_timestamp db timestamp timezone with
    | .error (.invalidFormat m) => ⟨some m, "unknown", "", false, false, 0, "unknown", none⟩
    | .error (.unknownTimezone n) => ⟨some ("Unexpected error: '" ++ n ++ "'"),
        "unknown", "", false, false, 0, "unknown", none⟩
    | .ok dt =>
      let hour := dt.naive.hour
      let time_of_day :=
        if 5 ≤ hour && hour < 9 then "early_morning"
        else if 9 ≤ hour && hour < 12 then "morning"
        else if 12 ≤ hour && hour < 17 then "afternoon"
        else if 17 ≤ hour && hour < 21 then "evening"
        else "late_night"
      let wd := weekdayNum dt.naive.year dt.naive.month dt.naive.day
      let is_weekend := 5 ≤ wd
      let is_business_hours := !is_weekend && (9 ≤ hour && hour < 17)
      let typical_activity :=
        if 6 ≤ hour && hour < 9 then "commute_time"
        else if 12 ≤ hour && hour < 13 then "lunch_time"
        else if 17 ≤ hour && hour < 19 then "commute_time"
        else if 19 ≤ hour && hour < 21 then "dinner_time"
        else if 22 ≤ hour || hour < 6 then "sleeping_time"
        else if is_business_hours then "work_time"
        else "leisure_time"
      let days_diff : Int :=
        (toOrdinal dt.naive.year dt.naive.month dt.naive.day : Int) -
          (toOrdinal now.year now.month now.day : Int)
      let relative_day :=
        if days_diff == 0 then some "today"
        else if days_diff == -1 then some "yesterday"
        else if days_diff == 1 then some "tomorrow"
        else none
      ⟨none, time_of_day, weekdayName wd, is_weekend, is_business_hours, hour,
        typical_activity, relative_day⟩

/-- Result dictionary of `parse_timestamp`. -/
structure ProjResult where
  error : Option String
  iso : String
  unix : String
  human : String
  timezone : String
  day_of_week : String
  date : String
  time : String
deriving DecidableEq, Repr

/-- Ordinal-0 base of the Unix epoch in `toSecs` coordinates. -/
def epochShift : Int := ((toOrdinal 1970 1 1 - 1) * 86400 : Nat)

/-- `dt.astimezone(tgt_tz)`: same instant, target-zone local fields
(`none` models the `OverflowError` outside the supported year range). -/
def astimezoneFields (tgt : Timezone) (utc : Int) : Option (DateTime × Int) :=
  let off := tgt.offAtUtc utc
  let localSecs := utc + off
  if 0 ≤ localSecs && localSecs < (maxSecs : Int) then
    some (ofSecs localSecs.toNat, off)
  else none

/-- `strftime("%B %d, %Y at %I:%M %p %Z")`. -/
def humanFmt (d : DateTime) (zone : String) : String :=
  monthName d.month ++ " " ++ String.mk (padNum 2 d.day) ++ ", " ++
    String.mk (padNum 4 d.year) ++ " at " ++
    String.mk (padNum 2 ((d.hour + 11) % 12 + 1) ++ ':' :: padNum 2 d.minute) ++
    (if d.hour < 12 then " AM " else " PM ") ++ zone

/-- `parse_timestamp(timestamp, source_timezone, target_timezone)` (source
lines 266-333).  `source_timezone or target_timezone` is modelled by
`Option.getD` (the empty-string-falsy corner of Python `or` is not
exercised by any claim). -/
def parse_timestamp (db : String → Option Timezone) (timestamp : String)
    (source_timezone : Option String) (target_timezone : String) : ProjResult :=
  let parse_tz := source_timezone.getD target_timezone
  let errPayload := fun (e : String) =>
    (⟨some e, "", "", "Error parsing timestamp", target_timezone, "", "", ""⟩ : ProjResult)
  match parse_standard_timestamp db timestamp parse_tz with
  | .error (.invalidFormat m) => errPayload m
  | .error (.unknownTimezone n) => errPayload ("Unexpected error: '" ++ n ++ "'")
  | .ok dt0 =>
    let conv : Except String Aware :=
      match source_timezone with
      | some s =>
        if s != target_timezone then
          match db target_timezone with
          | none => .error ("Unexpected error: '" ++ target_timezone ++ "'")
          | some tgt =>
            match astimezoneFields tgt (utcSecs dt0) with
            | some p => .ok ⟨p.1, p.2, tgt.tzname p.1⟩
            | none => .error "Unexpected error: date value out of range"
        else .ok dt0
      | none => .ok dt0
    match conv with
    | .error e => errPayload e
    | .ok dt =>
      ⟨none, printIso dt.naive dt.offsetSecs, intStr (utcSecs dt - epochShift),
        humanFmt dt.naive dt.zoneAbbrev, target_timezone,
        weekdayName (weekdayNum dt.naive.year dt.naive.month dt.naive.day),
        printDate dt.naive, printTimeOnly dt.naive⟩

/-- `format_duration(seconds, style)` (source lines 542-612).  The input is
an exact integral second count; an unrecognized style raises a
`ValueError` that the `except (ValueError, TypeError)` clause renders with
the misleading "must be a number" prefix. -/
def format_duration (seconds : Int) (style : String) : String :=
  let is_negative := seconds < 0
  let a := seconds.natAbs
  let days := a / 86400
  let hours := a % 86400 / 3600
  let minutes := a % 3600 / 60
  let secs := a % 60
  let res : Option String :=
    if style == "full" then
      let parts :=
        (if days > 0 then [pluralize days "day"] else []) ++
        (if hours > 0 then [pluralize hours "hour"] else []) ++
        (if minutes > 0 then [pluralize minutes "minute"] else [])
      let parts := if secs > 0 || parts.isEmpty then parts ++ [pluralize secs "second"] else parts
      some (joinSep ", " parts)
    else if style == "compact" then
      let parts :=
        (if days > 0 then [natStr days ++ "d"] else []) ++
        (if hours > 0 then [natStr hours ++ "h"] else []) ++
        (if minutes > 0 then [natStr minutes ++ "m"] else [])
      let parts := if secs > 0 || parts.isEmpty then parts ++ [natStr secs ++ "s"] else parts
      some (joinSep " " parts)
    else if style == "minimal" then
      if days > 0 then
        some (natStr days ++ ":" ++ String.mk (padNum 2 hours) ++ ":" ++
          String.mk (padNum 2 minutes) ++ ":" ++ String.mk (padNum 2 secs))
      else if hours > 0 then
        some (natStr hours ++ ":" ++ String.mk (padNum 2 minutes) ++ ":" ++
          String.mk (padNum 2 secs))
      else
        some (natStr minutes ++ ":" ++ String.mk (padNum 2 secs))
    else none
  match res with
  | some r => if is_negative then "-" ++ r else r
  | none =>
    "Error: Invalid input. Seconds must be a number. Invalid style: " ++ style ++
      ". Must be 'full', 'compact', or 'minimal'"

/-- Declarative characterization of the strings accepted by the full
format `"%Y-%m-%d %H:%M:%S"` as `strptime` implements it (lenient field
widths, whitespace-run separator) together with the resulting fields: the
grammar side of the parser/grammar equivalence. -/
def FullShape (t : List Char) (d : DateTime) : Prop :=
  ∃ ys ms ds ws hs mis ss : List Char,
    t = ys ++ ('-' :: (ms ++ ('-' :: (ds ++ (ws ++ (hs ++ (':' :: (mis ++ (':' :: ss))))))))) ∧
    ys.all isDigit = true ∧ ys.length = 4 ∧
    ms.all isDigit = true ∧ monthRunOk ms = true ∧
    ds.all isDigit = true ∧ dayRunOk ds = true ∧
    ws ≠ [] ∧ ws.all isWS = true ∧
    hs.all isDigit = true ∧ hourRunOk hs = true ∧
    mis.all isDigit = true ∧ minuteRunOk mis = true ∧
    ss.all isDigit = true ∧ secondRunOk ss = true ∧
    ctorOk (toVal ys) (toVal ms) (toVal ds) (toVal ss) = true ∧
    d = ⟨toVal ys, toVal ms, toVal ds, toVal hs, toVal mis, toVal ss⟩

/-- Declarative characterization of the date-only format `"%Y-%m-%d"`. -/
def DateShape (t : List Char) (d : DateTime) : Prop :=
  ∃ ys ms ds : List Char,
    t = ys ++ ('-' :: (ms ++ ('-' :: ds))) ∧
    ys.all isDigit = true ∧ ys.length = 4 ∧
    ms.all isDigit = true ∧ monthRunOk ms = true ∧
    ds.all isDigit = true ∧ dayRunOk ds = true ∧
    ctorOk (toVal ys) (toVal ms) (toVal ds) 0 = true ∧
    d = ⟨toVal ys, toVal ms, toVal ds, 0, 0, 0⟩

/-- Declarative characterization of the lenient trailing-token variant:
a full-format prefix, a space, and a final space-free token of at most 4
characters (the discarded "timezone abbreviation"). -/
def LenientShape (t : List Char) (d : DateTime) : Prop :=
  ∃ p0 p1 p2 : List Char,
    t = p0 ++ (' ' :: (p1 ++ (' ' :: p2))) ∧
    (∀ c ∈ p1, (c == ' ') = false) ∧ (∀ c ∈ p2, (c == ' ') = false) ∧
    p2.length ≤ 4 ∧
    FullShape (p0 ++ ' ' :: p1) d

/-- Modelled from the spec's words (§3): the canonical timestamp grammar
`YYYY-MM-DD HH:MM:SS` read strictly — four-digit year, two-digit
zero-padded month/day/hour/minute/second, single-space separator, valid
calendar date — as a decidable predicate. -/
def strictFullB (t : List Char) : Bool :=
  let yr := readRun t
  yr.1.length == 4 &&
  (match yr.2 with
   | '-' :: r2 =>
     let mr := readRun r2
     mr.1.length == 2 && 1 ≤ toVal mr.1 && toVal mr.1 ≤ 12 &&
     (match mr.2 with
      | '-' :: r4 =>
        let dr := readRun r4
        dr.1.length == 2 && 1 ≤ toVal dr.1 &&
        toVal dr.1 ≤ daysInMonth (toVal yr.1) (toVal mr.1) && 1 ≤ toVal yr.1 &&
        (match dr.2 with
         | ' ' :: r6 =>
           let hr := readRun r6
           hr.1.length == 2 && toVal hr.1 ≤ 23 &&
           (match hr.2 with
            | ':' :: r8 =>
              let mir := readRun r8
              mir.1.length == 2 && toVal mir.1 ≤ 59 &&
              (match mir.2 with
               | ':' :: r10 =>
                 let sr := readRun r10
                 sr.1.length == 2 && toVal sr.1 ≤ 59 && sr.2 == []
               | _ => false)
            | _ => false)
         | _ => false)
      | _ => false)
   | _ => false)

/-- Modelled from the spec's words (§3): the canonical date-only grammar
`YYYY-MM-DD` read strictly. -/
def strictDateB (t : List Char) : Bool :=
  let yr := readRun t
  yr.1.length == 4 && 1 ≤ toVal yr.1 &&
  (match yr.2 with
   | '-' :: r2 =>
     let mr := readRun r2
     mr.1.length == 2 && 1 ≤ toVal mr.1 && toVal mr.1 ≤ 12 &&
     (match mr.2 with
      | '-' :: r4 =>
        let dr := readRun r4
        dr.1.length == 2 && 1 ≤ toVal dr.1 &&
        toVal dr.1 ≤ daysInMonth (toVal yr.1) (toVal mr.1) && dr.2 == []
      | _ => false)
   | _ => false)

/-- Modelled from the spec's words: the trailing-token variant of the
strict full grammar. -/
def strictLenientB (t : List Char) : Bool :=
  match rsplit2 t with
  | [p0, p1, p2] => decide (p2.length ≤ 4) && strictFullB (p0 ++ ' ' :: p1)
  | _ => false

/-- `pat` begins `l`. -/
def leadsWith : List Char → List Char → Bool
  | [], _ => true
  | _ :: _, [] => false
  | p :: ps, c :: cs => p == c && leadsWith ps cs

/-- `pat` occurs contiguously somewhere in `l` (Python `pat in l`). -/
def occursIn (pat : List Char) : List Char → Bool
  | [] => pat.isEmpty
  | c :: cs => leadsWith pat (c :: cs) || occursIn pat cs

/-- Modelled from the spec §4.1, amended where its words and the code
disagree (the right-split is on the space character, not on general
whitespace, and the `InvalidFormat` message embeds the *trimmed* text):
(1) trim surrounding whitespace; (2) attempt the full grammar and localize
to the given timezone; (3) attempt the date-only grammar and localize at
midnight; (4) right-split the trimmed text on `' '` into at most 3 tokens
and, when there are exactly three and the last has at most 4 characters,
parse the first two (joined by a single space) with the full grammar,
localizing with the caller-supplied timezone and ignoring the trailing
token; (5) otherwise fail with an `InvalidFormat` error embedding the
trimmed text, the two grammar patterns and worked examples. -/
def specParse (db : String → Option Timezone) (text : String)
    (timezoneName : String) : Except PTError Aware :=
  match db timezoneName with
  | none => .error (.unknownTimezone timezoneName)
  | some tz =>
    let trimmed := stripChars text.data
    match strptimeFull trimmed with
    | some d => .ok (localize tz d)
    | none =>
      match strptimeDate trimmed with
      | some d => .ok (localize tz ⟨d.year, d.month, d.day, 0, 0, 0⟩)
      | none =>
        match rsplit2 trimmed with
        | [t0, t1, t2] =>
          if t2.length ≤ 4 then
            match strptimeFull (t0 ++ ' ' :: t1) with
            | some d => .ok (localize tz d)
            | none => .error (.invalidFormat (invalidMsg trimmed))
          else .error (.invalidFormat (invalidMsg trimmed))
        | _ => .error (.invalidFormat (invalidMsg trimmed))

set_option maxRecDepth 10000

theorem daysInMonthB_pos : ∀ (leap : Bool), ∀ m < 13, 1 ≤ m → 1 ≤ daysInMonthB leap m := by
  decide

theorem daysBeforeMonthB_succ : ∀ (leap : Bool), ∀ m < 12, 1 ≤ m →
    daysBeforeMonthB leap (m + 1) = daysBeforeMonthB leap m + daysInMonthB leap m := by
  decide

theorem dayOfYear_le : ∀ (leap : Bool), ∀ m < 13, ∀ d < 32, 1 ≤ m → 1 ≤ d →
    d ≤ daysInMonthB leap m →
    daysBeforeMonthB leap m + d ≤ (if leap then 366 else 365) := by
  decide

theorem monthFromAux_correct : ∀ (leap : Bool), ∀ doy < 367, 1 ≤ doy →
    doy ≤ (if leap then 366 else 365) →
    1 ≤ (monthFromAux 12 leap 1 doy).1 ∧ (monthFromAux 12 leap 1 doy).1 ≤ 12 ∧
    1 ≤ (monthFromAux 12 leap 1 doy).2 ∧
    (monthFromAux 12 leap 1 doy).2 ≤ daysInMonthB leap (monthFromAux 12 leap 1 doy).1 ∧
    daysBeforeMonthB leap (monthFromAux 12 leap 1 doy).1 + (monthFromAux 12 leap 1 doy).2 = doy := by
  decide

theorem monthFromAux_eqB : ∀ (leap : Bool), ∀ m < 13, ∀ d < 32, 1 ≤ m → 1 ≤ d →
    d ≤ daysInMonthB leap m →
    (decide (monthFromAux 12 leap 1 (daysBeforeMonthB leap m + d) = (m, d))) = true := by
  decide

theorem daysInMonthB_le : ∀ (leap : Bool), ∀ m < 13, daysInMonthB leap m ≤ 31 := by
  decide

theorem monthFromAux_eq (leap : Bool) (m d : Nat) (hm1 : 1 ≤ m) (hm2 : m ≤ 12)
    (hd1 : 1 ≤ d) (hd2 : d ≤ daysInMonthB leap m) :
    monthFromAux 12 leap 1 (daysBeforeMonthB leap m + d) = (m, d) := by
  have hle := daysInMonthB_le leap m (by omega)
  exact of_decide_eq_true (monthFromAux_eqB leap m (by omega) d (by omega) hm1 hd1 hd2)

set_option maxHeartbeats 2000000 in
theorem daysBeforeYear_succ (y : Nat) (h : 1 ≤ y) :
    daysBeforeYear (y + 1) = daysBeforeYear y + daysInYear y := by
  obtain ⟨z, rfl⟩ : ∃ z, y = z + 1 := ⟨y - 1, by omega⟩
  unfold daysBeforeYear daysInYear isLeap
  simp only [Nat.add_sub_cancel, Bool.or_eq_true, Bool.and_eq_true, beq_iff_eq,
    bne_iff_ne, ne_eq]
  split_ifs <;> omega

theorem daysInYear_ge (y : Nat) : 365 ≤ daysInYear y := by
  unfold daysInYear; split <;> omega

theorem daysBeforeYear_one : daysBeforeYear 1 = 0 := by rfl

theorem daysBeforeYear_mono : ∀ a b : Nat, 1 ≤ a → a ≤ b →
    daysBeforeYear a ≤ daysBeforeYear b := by
  intro a b ha hab
  induction b with
  | zero => omega
  | succ k ih =>
    rcases Nat.lt_or_ge a (k + 1) with hlt | hge
    · have hk : 1 ≤ k := by omega
      have := daysBeforeYear_succ k hk
      have := ih (by omega)
      omega
    · have heq : a = k + 1 := by omega
      exact heq ▸ Nat.le_refl _

theorem daysBeforeYear_step (a b : Nat) (ha : 1 ≤ a) (hab : a < b) :
    daysBeforeYear a + daysInYear a ≤ daysBeforeYear b := by
  have h1 := daysBeforeYear_succ a ha
  have h2 := daysBeforeYear_mono (a + 1) b (by omega) (by omega)
  omega

theorem yearFromAux_spec : ∀ fuel y n : Nat, 1 ≤ y → 1 ≤ n → n ≤ fuel →
    y ≤ (yearFromAux fuel y n).1 ∧ 1 ≤ (yearFromAux fuel y n).2 ∧
    (yearFromAux fuel y n).2 ≤ daysInYear (yearFromAux fuel y n).1 ∧
    daysBeforeYear (yearFromAux fuel y n).1 + (yearFromAux fuel y n).2 =
      daysBeforeYear y + n := by
  intro fuel
  induction fuel with
  | zero => intro y n _ h1 h2; omega
  | succ k ih =>
    intro y n hy hn hfuel
    simp only [yearFromAux]
    by_cases hle : n ≤ daysInYear y
    · simp [hle, hn]
    · simp only [hle, if_false]
      have hdy := daysInYear_ge y
      have hrec := ih (y + 1) (n - daysInYear y) (by omega) (by omega) (by omega)
      have hsucc := daysBeforeYear_succ y hy
      refine ⟨by omega, hrec.2.1, hrec.2.2.1, by omega⟩

theorem yearFromAux_eq : ∀ fuel y0 y doy : Nat, 1 ≤ y0 → y0 ≤ y → 1 ≤ doy →
    doy ≤ daysInYear y →
    daysBeforeYear y - daysBeforeYear y0 + doy ≤ fuel →
    yearFromAux fuel y0 (daysBeforeYear y - daysBeforeYear y0 + doy) = (y, doy) := by
  intro fuel
  induction fuel with
  | zero =>
    intro y0 y doy h0 h1 h2 h3 h4
    have := daysBeforeYear_mono y0 y h0 h1
    omega
  | succ k ih =>
    intro y0 y doy h0 h1 h2 h3 h4
    simp only [yearFromAux]
    rcases Nat.eq_or_lt_of_le h1 with heq | hlt
    · subst heq
      have hz : daysBeforeYear y0 - daysBeforeYear y0 + doy = doy := by omega
      rw [hz]
      simp only [h3, if_true]
    · have hstep := daysBeforeYear_step y0 y h0 hlt
      have hmono := daysBeforeYear_mono y0 y h0 (by omega)
      have hsucc := daysBeforeYear_succ y0 h0
      have hdy0 := daysInYear_ge y0
      have hgt : ¬ (daysBeforeYear y - daysBeforeYear y0 + doy ≤ daysInYear y0) := by omega
      simp only [hgt, if_false]
      have harg : daysBeforeYear y - daysBeforeYear y0 + doy - daysInYear y0 =
          daysBeforeYear y - daysBeforeYear (y0 + 1) + doy := by
        have := daysBeforeYear_mono (y0 + 1) y (by omega) (by omega)
        omega
      rw [harg]
      exact ih (y0 + 1) y doy (by omega) (by omega) h2 h3 (by omega)

theorem ofDays_toOrdinal (y m d : Nat) (hy : 1 ≤ y) (hm1 : 1 ≤ m) (hm2 : m ≤ 12)
    (hd1 : 1 ≤ d) (hd2 : d ≤ daysInMonth y m) :
    ofDays (toOrdinal y m d) = (y, m, d) := by
  have hdle := daysInMonthB_le (isLeap y) m (by omega)
  have hdoy1 : 1 ≤ daysBeforeMonthB (isLeap y) m + d := by omega
  have hdoy2 : daysBeforeMonthB (isLeap y) m + d ≤ daysInYear y := by
    have := dayOfYear_le (isLeap y) m (by omega) d (by
      have : daysInMonth y m ≤ 31 := hdle
      omega) hm1 hd1 hd2
    unfold daysInYear
    exact this
  have hord : toOrdinal y m d =
      daysBeforeYear y - daysBeforeYear 1 + (daysBeforeMonthB (isLeap y) m + d) := by
    unfold toOrdinal
    rw [daysBeforeYear_one]
    omega
  unfold ofDays
  rw [hord, yearFromAux_eq _ 1 y (daysBeforeMonthB (isLeap y) m + d) (by omega) hy hdoy1
    hdoy2 (by omega)]
  simp only
  rw [monthFromAux_eq (isLeap y) m d hm1 hm2 hd1 hd2]

theorem ofDays_spec (n : Nat) (hn : 1 ≤ n) :
    toOrdinal (ofDays n).1 (ofDays n).2.1 (ofDays n).2.2 = n ∧
    1 ≤ (ofDays n).1 ∧ 1 ≤ (ofDays n).2.1 ∧ (ofDays n).2.1 ≤ 12 ∧
    1 ≤ (ofDays n).2.2 ∧ (ofDays n).2.2 ≤ daysInMonth (ofDays n).1 (ofDays n).2.1 ∧
    daysBeforeYear (ofDays n).1 < n := by
  have hy := yearFromAux_spec n 1 n (by omega) hn (by omega)
  rcases hy with ⟨hy1, hy2, hy3, hy4⟩
  rw [daysBeforeYear_one] at hy4
  have hdoy367 : (yearFromAux n 1 n).2 < 367 := by
    have : daysInYear (yearFromAux n 1 n).1 ≤ 366 := by
      unfold daysInYear; split <;> omega
    omega
  have hdoyle : (yearFromAux n 1 n).2 ≤
      (if isLeap (yearFromAux n 1 n).1 then 366 else 365) := by
    have : daysInYear (yearFromAux n 1 n).1 =
        (if isLeap (yearFromAux n 1 n).1 then 366 else 365) := rfl
    omega
  have hm := monthFromAux_correct (isLeap (yearFromAux n 1 n).1)
    (yearFromAux n 1 n).2 hdoy367 hy2 hdoyle
  rcases hm with ⟨hm1, hm2, hm3, hm4, hm5⟩
  unfold ofDays toOrdinal
  simp only
  constructor
  · omega
  · exact ⟨hy1, hm1, hm2, hm3, hm4, by omega⟩

theorem toSecs_ofSecs (n : Nat) : toSecs (ofSecs n) = n := by
  have hs := ofDays_spec (n / 86400 + 1) (by omega)
  unfold ofSecs toSecs
  simp only
  rw [hs.1]
  omega

theorem validB_unpack (d : DateTime) (h : ValidB d = true) :
    1 ≤ d.year ∧ d.year ≤ 9999 ∧ 1 ≤ d.month ∧ d.month ≤ 12 ∧ 1 ≤ d.day ∧
    d.day ≤ daysInMonth d.year d.month ∧ d.hour ≤ 23 ∧ d.minute ≤ 59 ∧
    d.second ≤ 59 := by
  unfold ValidB at h
  simp only [Bool.and_eq_true, decide_eq_true_eq] at h
  exact ⟨h.1.1.1.1.1.1.1.1, h.1.1.1.1.1.1.1.2, h.1.1.1.1.1.1.2, h.1.1.1.1.1.2,
    h.1.1.1.1.2, h.1.1.1.2, h.1.1.2, h.1.2, h.2⟩

theorem ofSecs_toSecs (d : DateTime) (h : ValidB d = true) : ofSecs (toSecs d) = d := by
  obtain ⟨h1, h2, h3, h4, h5, h6, h7, h8, h9⟩ := validB_unpack d h
  have hord : 1 ≤ toOrdinal d.year d.month d.day := by unfold toOrdinal; omega
  have hof := ofDays_toOrdinal d.year d.month d.day h1 h3 h4 h5 h6
  have harg : toSecs d / 86400 + 1 = toOrdinal d.year d.month d.day := by
    unfold toSecs; omega
  have h86 : toSecs d % 86400 = 3600 * d.hour + 60 * d.minute + d.second := by
    unfold toSecs; omega
  have h36 : toSecs d % 3600 = 60 * d.minute + d.second := by
    unfold toSecs; omega
  have h60 : toSecs d % 60 = d.second := by
    unfold toSecs; omega
  unfold ofSecs
  rw [harg, hof, h86, h36, h60]
  have hh : (3600 * d.hour + 60 * d.minute + d.second) / 3600 = d.hour := by omega
  have hm : (60 * d.minute + d.second) / 60 = d.minute := by omega
  rw [hh, hm]

theorem toSecs_inj (d1 d2 : DateTime) (h1 : ValidB d1 = true) (h2 : ValidB d2 = true)
    (he : toSecs d1 = toSecs d2) : d1 = d2 := by
  rw [← ofSecs_toSecs d1 h1, ← ofSecs_toSecs d2 h2, he]

theorem daysBeforeYear_10000 : daysBeforeYear 10000 = 3652059 := by decide

theorem ofSecs_valid (n : Nat) (h : n < maxSecs) : ValidB (ofSecs n) = true := by
  have hs := ofDays_spec (n / 86400 + 1) (by omega)
  obtain ⟨hord, hy1, hm1, hm2, hd1, hd2, hlt⟩ := hs
  have hy9999 : (ofDays (n / 86400 + 1)).1 ≤ 9999 := by
    by_contra hgt
    have h10k : 10000 ≤ (ofDays (n / 86400 + 1)).1 := by omega
    have hmono := daysBeforeYear_mono 10000 (ofDays (n / 86400 + 1)).1 (by omega) h10k
    rw [daysBeforeYear_10000] at hmono
    unfold maxSecs at h
    omega
  unfold ofSecs ValidB
  simp only [Bool.and_eq_true, decide_eq_true_eq]
  refine ⟨⟨⟨⟨⟨⟨⟨⟨hy1, hy9999⟩, hm1⟩, hm2⟩, hd1⟩, hd2⟩, by omega⟩, by omega⟩, by omega⟩

theorem isDigit_digitChar : ∀ k < 10, isDigit (digitChar k) = true := by decide

theorem digVal_digitChar : ∀ k < 10, digVal (digitChar k) = k := by decide

theorem digVal_le_of_isDigit (c : Char) (h : isDigit c = true) : digVal c ≤ 9 := by
  unfold isDigit at h
  simp only [Bool.and_eq_true, decide_eq_true_eq] at h
  have h2 : c.val.toNat ≤ 57 := (UInt32.le_def.mp (Char.le_def.mp h.2))
  have h3 : c.toNat = c.val.toNat := rfl
  unfold digVal
  omega

theorem digVal_ge_of_isDigit (c : Char) (h : isDigit c = true) : 48 ≤ c.toNat := by
  unfold isDigit at h
  simp only [Bool.and_eq_true, decide_eq_true_eq] at h
  exact UInt32.le_def.mp (Char.le_def.mp h.1)

theorem toVal_append_single (l : List Char) (c : Char) :
    toVal (l ++ [c]) = 10 * toVal l + digVal c := by
  unfold toVal
  rw [List.foldl_append]
  rfl

theorem toVal_replicate_zero (k : Nat) (l : List Char) :
    toVal (List.replicate k '0' ++ l) = toVal l := by
  induction k with
  | zero => rfl
  | succ j ih =>
    have : List.replicate (j + 1) '0' ++ l = '0' :: (List.replicate j '0' ++ l) := by
      simp [List.replicate_succ]
    rw [this]
    unfold toVal at ih ⊢
    simp only [List.foldl_cons]
    have hz : 10 * 0 + digVal '0' = 0 := by decide
    rw [hz]
    exact ih

theorem decDigitsAux_spec : ∀ fuel n : Nat, n < fuel →
    toVal (decDigitsAux fuel n) = n ∧ (decDigitsAux fuel n).all isDigit = true ∧
    decDigitsAux fuel n ≠ [] := by
  intro fuel
  induction fuel with
  | zero => intro n h; omega
  | succ k ih =>
    intro n h
    simp only [decDigitsAux]
    by_cases h10 : n < 10
    · simp only [h10, if_true]
      refine ⟨?_, ?_, by simp⟩
      · have := digVal_digitChar n h10
        unfold toVal
        simp only [List.foldl_cons, List.foldl_nil]
        omega
      · simp [isDigit_digitChar n h10]
    · simp only [h10, if_false]
      have hdiv : n / 10 < k := by omega
      obtain ⟨ih1, ih2, ih3⟩ := ih (n / 10) hdiv
      refine ⟨?_, ?_, by simp⟩
      · rw [toVal_append_single, ih1, digVal_digitChar (n % 10) (by omega)]
        omega
      · simp only [List.all_append, ih2, Bool.true_and, List.all_cons, List.all_nil,
          Bool.and_true]
        exact isDigit_digitChar (n % 10) (by omega)

theorem decDigits_toVal (n : Nat) : toVal (decDigits n) = n :=
  (decDigitsAux_spec (n + 1) n (by omega)).1

theorem decDigits_all (n : Nat) : (decDigits n).all isDigit = true :=
  (decDigitsAux_spec (n + 1) n (by omega)).2.1

theorem decDigits_ne_nil (n : Nat) : decDigits n ≠ [] :=
  (decDigitsAux_spec (n + 1) n (by omega)).2.2

theorem decDigitsAux_length : ∀ fuel n k : Nat, n < fuel → n < 10 ^ k → 1 ≤ k →
    (decDigitsAux fuel n).length ≤ k := by
  intro fuel
  induction fuel with
  | zero => intro n k h; omega
  | succ j ih =>
    intro n k h hp hk
    simp only [decDigitsAux]
    by_cases h10 : n < 10
    · simp only [h10, if_true, List.length_cons, List.length_nil]
      omega
    · simp only [h10, if_false, List.length_append, List.length_cons, List.length_nil]
      have hk2 : 2 ≤ k := by
        by_contra hlt
        have : k = 1 := by omega
        subst this
        simp at hp
        omega
      have hpow : 10 ^ k = 10 ^ (k - 1) * 10 := by
        have hke : k - 1 + 1 = k := by omega
        rw [← hke, pow_succ]
        simp
      have hih := ih (n / 10) (k - 1) (by omega) (by omega) (by omega)
      omega

theorem decDigits_length (n k : Nat) (h : n < 10 ^ k) (hk : 1 ≤ k) :
    (decDigits n).length ≤ k :=
  decDigitsAux_length (n + 1) n k (by omega) h hk

theorem padNum_spec (w n : Nat) (h : n < 10 ^ w) (hw : 1 ≤ w) :
    (padNum w n).length = w ∧ (padNum w n).all isDigit = true ∧ toVal (padNum w n) = n := by
  have hlen := decDigits_length n w h hw
  have hne := decDigits_ne_nil n
  refine ⟨?_, ?_, ?_⟩
  · unfold padNum
    simp only [List.length_append, List.length_replicate]
    omega
  · unfold padNum
    simp only [List.all_append, Bool.and_eq_true]
    constructor
    · simp only [List.all_eq_true]
      intro c hc
      have := List.eq_of_mem_replicate hc
      subst this
      decide
    · exact decDigits_all n
  · unfold padNum
    rw [toVal_replicate_zero]
    exact decDigits_toVal n

theorem toVal_lt (l : List Char) (h : l.all isDigit = true) : toVal l < 10 ^ l.length := by
  induction l using List.reverseRecOn with
  | nil => simp [toVal]
  | append_singleton xs c ih =>
    simp only [List.all_append, List.all_cons, List.all_nil, Bool.and_true,
      Bool.and_eq_true] at h
    rw [toVal_append_single]
    have hc := digVal_le_of_isDigit c h.2
    have hxs := ih h.1
    simp only [List.length_append, List.length_cons, List.length_nil, pow_succ]
    omega

theorem run_split (p : Char → Bool) (a b : List Char)
    (ha : a.all p = true)
    (hb : ∀ c, b.head? = some c → p c = false) :
    (a ++ b).takeWhile p = a ∧ (a ++ b).dropWhile p = b := by
  induction a with
  | nil =>
    simp only [List.nil_append]
    cases b with
    | nil => simp
    | cons c cs =>
      have hc := hb c rfl
      constructor
      · exact List.takeWhile_cons_of_neg (by simp [hc])
      · exact List.dropWhile_cons_of_neg (by simp [hc])
  | cons x xs ih =>
    simp only [List.all_cons, Bool.and_eq_true] at ha
    obtain ⟨ih1, ih2⟩ := ih ha.2
    constructor
    · simp only [List.cons_append, List.takeWhile_cons_of_pos ha.1, ih1]
    · simp only [List.cons_append, List.dropWhile_cons_of_pos ha.1, ih2]

theorem ws_not_digit (c : Char) (h : isWS c = true) : isDigit c = false := by
  unfold isWS at h
  simp only [Bool.or_eq_true, beq_iff_eq] at h
  rcases h with ((((h | h) | h) | h) | h) | h <;> subst h <;> decide

theorem digit_not_ws (c : Char) (h : isDigit c = true) : isWS c = false := by
  cases hw : isWS c
  · rfl
  · rw [ws_not_digit c hw] at h
    cases h

theorem readRun_split (a b : List Char) (ha : a.all isDigit = true)
    (hb : ∀ c, b.head? = some c → isDigit c = false) :
    readRun (a ++ b) = (a, b) := by
  unfold readRun
  have := run_split isDigit a b ha hb
  rw [this.1, this.2]

theorem readWS_split (a b : List Char) (ha : a.all isWS = true)
    (hb : ∀ c, b.head? = some c → isWS c = false) :
    readWS (a ++ b) = (a, b) := by
  unfold readWS
  have := run_split isWS a b ha hb
  rw [this.1, this.2]

theorem readRun_eq (l : List Char) :
    l = (readRun l).1 ++ (readRun l).2 ∧ (readRun l).1.all isDigit = true ∧
    ∀ c, (readRun l).2.head? = some c → isDigit c = false := by
  unfold readRun
  refine ⟨(List.takeWhile_append_dropWhile isDigit l).symm, ?_, ?_⟩
  · simp only [List.all_eq_true]
    intro c hc
    exact List.mem_takeWhile_imp hc
  · intro c hc
    have := List.head?_dropWhile_not isDigit l
    rw [hc] at this
    exact this

theorem readWS_eq (l : List Char) :
    l = (readWS l).1 ++ (readWS l).2 ∧ (readWS l).1.all isWS = true ∧
    ∀ c, (readWS l).2.head? = some c → isWS c = false := by
  unfold readWS
  refine ⟨(List.takeWhile_append_dropWhile isWS l).symm, ?_, ?_⟩
  · simp only [List.all_eq_true]
    intro c hc
    exact List.mem_takeWhile_imp hc
  · intro c hc
    have := List.head?_dropWhile_not isWS l
    rw [hc] at this
    exact this
theorem parseDateRaw_sound (l : List Char) (y m d : Nat) (rest : List Char)
    (h : parseDateRaw l = some ((y, m, d), rest)) :
    ∃ ys ms ds, l = ys ++ ('-' :: (ms ++ ('-' :: (ds ++ rest)))) ∧
      ys.all isDigit = true ∧ ys.length = 4 ∧ toVal ys = y ∧
      ms.all isDigit = true ∧ monthRunOk ms = true ∧ toVal ms = m ∧
      ds.all isDigit = true ∧ dayRunOk ds = true ∧ toVal ds = d ∧
      (∀ c, rest.head? = some c → isDigit c = false) := by
  unfold parseDateRaw at h
  dsimp only at h
  split at h
  case isTrue h4 =>
    split at h
    case h_1 r2 heq2 =>
      split at h
      case isTrue hmok =>
        split at h
        case h_1 r4 heq4 =>
          split at h
          case isTrue hdok =>
            obtain ⟨he1, ha1, hh1⟩ := readRun_eq l
            obtain ⟨he2, ha2, hh2⟩ := readRun_eq r2
            obtain ⟨he3, ha3, hh3⟩ := readRun_eq r4
            simp only [Option.some.injEq, Prod.mk.injEq] at h
            obtain ⟨⟨hy, hm, hd⟩, hr⟩ := h
            refine ⟨(readRun l).1, (readRun r2).1, (readRun r4).1, ?_, ha1,
              by simpa using h4, hy, ha2, hmok, hm, ha3, hdok, hd, ?_⟩
            · conv_lhs => rw [he1, heq2, he2, heq4, he3, hr]
            · rw [← hr]
              exact hh3
          case isFalse hdok => cases h
        case h_2 x hne => cases h
      case isFalse hmok => cases h
    case h_2 x hne => cases h
  case isFalse h4 => cases h

theorem parseDateRaw_complete (ys ms ds rest : List Char)
    (hys : ys.all isDigit = true) (hylen : ys.length = 4)
    (hms : ms.all isDigit = true) (hmok : monthRunOk ms = true)
    (hds : ds.all isDigit = true) (hdok : dayRunOk ds = true)
    (hrest : ∀ c, rest.head? = some c → isDigit c = false) :
    parseDateRaw (ys ++ ('-' :: (ms ++ ('-' :: (ds ++ rest))))) =
      some ((toVal ys, toVal ms, toVal ds), rest) := by
  unfold parseDateRaw
  dsimp only
  rw [readRun_split ys ('-' :: (ms ++ ('-' :: (ds ++ rest)))) hys (by
    intro c hc
    simp only [List.head?_cons, Option.some.injEq] at hc
    subst hc
    decide)]
  dsimp only
  rw [if_pos (show (ys.length == 4) = true by rw [hylen]; rfl)]
  split
  case h_2 x hne => exact absurd rfl (hne (ms ++ ('-' :: (ds ++ rest))))
  case h_1 r2 heq =>
    obtain rfl : ms ++ ('-' :: (ds ++ rest)) = r2 := by
      simpa using heq
    rw [readRun_split ms ('-' :: (ds ++ rest)) hms (by
      intro c hc
      simp only [List.head?_cons, Option.some.injEq] at hc
      subst hc
      decide)]
    dsimp only
    rw [if_pos hmok]
    split
    case h_2 x hne => exact absurd rfl (hne (ds ++ rest))
    case h_1 r4 heq4 =>
      obtain rfl : ds ++ rest = r4 := by simpa using heq4
      rw [readRun_split ds rest hds hrest]
      dsimp only
      rw [if_pos hdok]

theorem parseTimeRaw_sound (l : List Char) (h mi s : Nat) (rest : List Char)
    (hp : parseTimeRaw l = some ((h, mi, s), rest)) :
    ∃ hs mis ss, l = hs ++ (':' :: (mis ++ (':' :: (ss ++ rest)))) ∧
      hs.all isDigit = true ∧ hourRunOk hs = true ∧ toVal hs = h ∧
      mis.all isDigit = true ∧ minuteRunOk mis = true ∧ toVal mis = mi ∧
      ss.all isDigit = true ∧ secondRunOk ss = true ∧ toVal ss = s ∧
      (∀ c, rest.head? = some c → isDigit c = false) := by
  unfold parseTimeRaw at hp
  dsimp only at hp
  split at hp
  case isTrue hhok =>
    split at hp
    case h_1 r2 heq2 =>
      split at hp
      case isTrue hmok =>
        split at hp
        case h_1 r4 heq4 =>
          split at hp
          case isTrue hsok =>
            obtain ⟨he1, ha1, hh1⟩ := readRun_eq l
            obtain ⟨he2, ha2, hh2⟩ := readRun_eq r2
            obtain ⟨he3, ha3, hh3⟩ := readRun_eq r4
            simp only [Option.some.injEq, Prod.mk.injEq] at hp
            obtain ⟨⟨hy, hm, hd⟩, hr⟩ := hp
            refine ⟨(readRun l).1, (readRun r2).1, (readRun r4).1, ?_, ha1,
              hhok, hy, ha2, hmok, hm, ha3, hsok, hd, ?_⟩
            · conv_lhs => rw [he1, heq2, he2, heq4, he3, hr]
            · rw [← hr]
              exact hh3
          case isFalse hsok => cases hp
        case h_2 x hne => cases hp
      case isFalse hmok => cases hp
    case h_2 x hne => cases hp
  case isFalse hhok => cases hp

theorem parseTimeRaw_complete (hs mis ss rest : List Char)
    (hhs : hs.all isDigit = true) (hhok : hourRunOk hs = true)
    (hmis : mis.all isDigit = true) (hmok : minuteRunOk mis = true)
    (hss : ss.all isDigit = true) (hsok : secondRunOk ss = true)
    (hrest : ∀ c, rest.head? = some c → isDigit c = false) :
    parseTimeRaw (hs ++ (':' :: (mis ++ (':' :: (ss ++ rest))))) =
      some ((toVal hs, toVal mis, toVal ss), rest) := by
  unfold parseTimeRaw
  dsimp only
  rw [readRun_split hs (':' :: (mis ++ (':' :: (ss ++ rest)))) hhs (by
    intro c hc
    simp only [List.head?_cons, Option.some.injEq] at hc
    subst hc
    decide)]
  dsimp only
  rw [if_pos hhok]
  split
  case h_2 x hne => exact absurd rfl (hne (mis ++ (':' :: (ss ++ rest))))
  case h_1 r2 heq =>
    obtain rfl : mis ++ (':' :: (ss ++ rest)) = r2 := by simpa using heq
    rw [readRun_split mis (':' :: (ss ++ rest)) hmis (by
      intro c hc
      simp only [List.head?_cons, Option.some.injEq] at hc
      subst hc
      decide)]
    dsimp only
    rw [if_pos hmok]
    split
    case h_2 x hne => exact absurd rfl (hne (ss ++ rest))
    case h_1 r4 heq4 =>
      obtain rfl : ss ++ rest = r4 := by simpa using heq4
      rw [readRun_split ss rest hss hrest]
      dsimp only
      rw [if_pos hsok]

theorem strptimeFull_sound (t : List Char) (d : DateTime)
    (h : strptimeFull t = some d) : FullShape t d := by
  unfold strptimeFull at h
  split at h
  case h_2 => cases h
  case h_1 ymd r heq1 =>
    dsimp only at h
    split at h
    case isTrue => cases h
    case isFalse hws =>
      split at h
      case h_2 => cases h
      case h_1 hms rest heq2 =>
        split at h
        case isFalse => cases h
        case isTrue hc =>
          simp only [Option.some.injEq] at h
          simp only [Bool.and_eq_true, beq_iff_eq] at hc
          obtain ⟨hrest0, hctor⟩ := hc
          subst hrest0
          obtain ⟨ys, ms, ds, hteq, hysa, hysl, hysv, hmsa, hmsok, hmsv, hdsa,
            hdsok, hdsv, hrh⟩ :=
            parseDateRaw_sound t ymd.1 ymd.2.1 ymd.2.2 r heq1
          obtain ⟨hwe, hwa, hwh⟩ := readWS_eq r
          obtain ⟨hhs, mis, ss, hteq2, hhsa, hhok, hhsv, hmisa, hmiok, hmisv,
            hssa, hssok, hssv, hrh2⟩ :=
            parseTimeRaw_sound (readWS r).2 hms.1 hms.2.1 hms.2.2 [] heq2
          refine ⟨ys, ms, ds, (readWS r).1, hhs, mis, ss, ?_, hysa, hysl, hmsa,
            hmsok, hdsa, hdsok, ?_, hwa, hhsa, hhok, hmisa, hmiok, hssa, hssok,
            ?_, ?_⟩
          · have hr2 : r = (readWS r).1 ++ (hhs ++ (':' :: (mis ++ (':' :: ss)))) := by
              conv_lhs => rw [hwe, hteq2]
              simp
            conv_lhs => rw [hteq, hr2]
          · intro hnil
            rw [hnil] at hws
            simp at hws
          · rw [hysv, hmsv, hdsv, hssv]
            exact hctor
          · rw [← h, hysv, hmsv, hdsv, hhsv, hmisv, hssv]

theorem list_ne_nil_of_length_pos {l : List Char} (h : 1 ≤ l.length) : l ≠ [] := by
  cases l
  · simp at h
  · simp

theorem head_append_of_ne_nil (a b : List Char) (ha : a ≠ []) (c : Char)
    (h : (a ++ b).head? = some c) : a.head? = some c := by
  rw [List.head?_append_of_ne_nil _ ha] at h
  exact h

theorem mem_of_head? {l : List Char} {c : Char} (h : l.head? = some c) : c ∈ l := by
  cases l with
  | nil => cases h
  | cons x xs =>
    simp only [List.head?_cons, Option.some.injEq] at h
    subst h
    exact List.mem_cons_self x xs

theorem hourRun_ne_nil (hs : List Char) (h : hourRunOk hs = true) : hs ≠ [] := by
  unfold hourRunOk at h
  simp only [Bool.or_eq_true, Bool.and_eq_true, beq_iff_eq] at h
  rcases h with ⟨h1, _⟩ | h1 <;> exact list_ne_nil_of_length_pos (by omega)

theorem strptimeFull_complete (t : List Char) (d : DateTime) (hsh : FullShape t d) :
    strptimeFull t = some d := by
  obtain ⟨ys, ms, ds, ws, hhs, mis, ss, hteq, hysa, hysl, hmsa, hmsok, hdsa,
    hdsok, hwne, hwa, hhsa, hhok, hmisa, hmiok, hssa, hssok, hctor, hd⟩ := hsh
  subst hteq
  unfold strptimeFull
  have hwhead : ∀ c, (ws ++ (hhs ++ (':' :: (mis ++ (':' :: ss))))).head? = some c →
      isDigit c = false := by
    intro c hc
    have hc2 := head_append_of_ne_nil ws _ hwne c hc
    have hmem := mem_of_head? hc2
    have hcw : isWS c = true := by
      rw [List.all_eq_true] at hwa
      exact hwa c hmem
    exact ws_not_digit c hcw
  rw [parseDateRaw_complete ys ms ds (ws ++ (hhs ++ (':' :: (mis ++ (':' :: ss)))))
    hysa hysl hmsa hmsok hdsa hdsok hwhead]
  dsimp only
  have hhne := hourRun_ne_nil hhs hhok
  have hhhead : ∀ c, (hhs ++ (':' :: (mis ++ (':' :: ss)))).head? = some c →
      isWS c = false := by
    intro c hc
    have hc2 := head_append_of_ne_nil hhs _ hhne c hc
    have hmem := mem_of_head? hc2
    have : isDigit c = true := by
      rw [List.all_eq_true] at hhsa
      exact hhsa c hmem
    exact digit_not_ws c this
  rw [readWS_split ws (hhs ++ (':' :: (mis ++ (':' :: ss)))) hwa hhhead]
  dsimp only
  rw [if_neg (by
    simp only [beq_iff_eq]
    intro hlen
    exact hwne (List.eq_nil_of_length_eq_zero hlen))]
  have hsse : hhs ++ (':' :: (mis ++ (':' :: ss))) =
      hhs ++ (':' :: (mis ++ (':' :: (ss ++ [])))) := by simp
  rw [hsse, parseTimeRaw_complete hhs mis ss [] hhsa hhok hmisa hmiok hssa hssok
    (by intro c hc; cases hc)]
  split
  case h_2 hne => exact Option.noConfusion hne
  case h_1 p rest heq =>
    simp only [Option.some.injEq, Prod.mk.injEq] at heq
    obtain ⟨hp, hrest⟩ := heq
    subst hp
    subst hrest
    rw [if_pos (by simp [hctor])]
    rw [hd]

theorem strptimeDate_sound (t : List Char) (d : DateTime)
    (h : strptimeDate t = some d) : DateShape t d := by
  unfold strptimeDate at h
  split at h
  case h_2 => cases h
  case h_1 ymd rest heq1 =>
    split at h
    case isFalse => cases h
    case isTrue hc =>
      simp only [Option.some.injEq] at h
      simp only [Bool.and_eq_true, beq_iff_eq] at hc
      obtain ⟨hrest0, hctor⟩ := hc
      subst hrest0
      obtain ⟨ys, ms, ds, hteq, hysa, hysl, hysv, hmsa, hmsok, hmsv, hdsa,
        hdsok, hdsv, hrh⟩ :=
        parseDateRaw_sound t ymd.1 ymd.2.1 ymd.2.2 [] heq1
      refine ⟨ys, ms, ds, ?_, hysa, hysl, hmsa, hmsok, hdsa, hdsok, ?_, ?_⟩
      · rw [hteq]
        simp
      · rw [hysv, hmsv, hdsv]
        exact hctor
      · rw [← h, hysv, hmsv, hdsv]

theorem strptimeDate_complete (t : List Char) (d : DateTime) (hsh : DateShape t d) :
    strptimeDate t = some d := by
  obtain ⟨ys, ms, ds, hteq, hysa, hysl, hmsa, hmsok, hdsa, hdsok, hctor, hd⟩ := hsh
  subst hteq
  unfold strptimeDate
  have hd2 : ys ++ ('-' :: (ms ++ ('-' :: ds))) =
      ys ++ ('-' :: (ms ++ ('-' :: (ds ++ [])))) := by simp
  rw [hd2, parseDateRaw_complete ys ms ds [] hysa hysl hmsa hmsok hdsa hdsok
    (by intro c hc; cases hc)]
  split
  case h_2 hne => exact Option.noConfusion hne
  case h_1 p rest heq =>
    simp only [Option.some.injEq, Prod.mk.injEq] at heq
    obtain ⟨hp, hrest⟩ := heq
    subst hp
    subst hrest
    rw [if_pos (by simp [hctor])]
    rw [hd]

theorem monthRun_bounds (ms : List Char) (ha : ms.all isDigit = true)
    (h : monthRunOk ms = true) : 1 ≤ toVal ms ∧ toVal ms ≤ 12 := by
  unfold monthRunOk at h
  simp only [Bool.or_eq_true, Bool.and_eq_true, beq_iff_eq, decide_eq_true_eq] at h
  rcases h with ⟨⟨h1, h2⟩, h3⟩ | ⟨h1, h2⟩
  · exact ⟨h2, h3⟩
  · have := toVal_lt ms ha
    rw [h1] at this
    simp at this
    omega

theorem dayRun_bounds (ds : List Char) (ha : ds.all isDigit = true)
    (h : dayRunOk ds = true) : 1 ≤ toVal ds ∧ toVal ds ≤ 31 := by
  unfold dayRunOk at h
  simp only [Bool.or_eq_true, Bool.and_eq_true, beq_iff_eq, decide_eq_true_eq] at h
  rcases h with ⟨⟨h1, h2⟩, h3⟩ | ⟨h1, h2⟩
  · exact ⟨h2, h3⟩
  · have := toVal_lt ds ha
    rw [h1] at this
    simp at this
    omega

theorem hourRun_bounds (hs : List Char) (ha : hs.all isDigit = true)
    (h : hourRunOk hs = true) : toVal hs ≤ 23 := by
  unfold hourRunOk at h
  simp only [Bool.or_eq_true, Bool.and_eq_true, beq_iff_eq, decide_eq_true_eq] at h
  rcases h with ⟨h1, h2⟩ | h1
  · exact h2
  · have := toVal_lt hs ha
    rw [h1] at this
    simp at this
    omega

theorem minuteRun_bounds (ms : List Char) (ha : ms.all isDigit = true)
    (h : minuteRunOk ms = true) : toVal ms ≤ 59 := by
  unfold minuteRunOk at h
  simp only [Bool.or_eq_true, Bool.and_eq_true, beq_iff_eq, decide_eq_true_eq] at h
  rcases h with ⟨h1, h2⟩ | h1
  · exact h2
  · have := toVal_lt ms ha
    rw [h1] at this
    simp at this
    omega

theorem ctorOk_unpack (y m d s : Nat) (h : ctorOk y m d s = true) :
    1 ≤ y ∧ d ≤ daysInMonth y m ∧ s ≤ 59 := by
  unfold ctorOk at h
  simp only [Bool.and_eq_true, decide_eq_true_eq] at h
  exact ⟨h.1.1, h.1.2, h.2⟩

theorem strptimeFull_valid (t : List Char) (d : DateTime)
    (h : strptimeFull t = some d) : ValidB d = true := by
  obtain ⟨ys, ms, ds, ws, hhs, mis, ss, hteq, hysa, hysl, hmsa, hmsok, hdsa,
    hdsok, hwne, hwa, hhsa, hhok, hmisa, hmiok, hssa, hssok, hctor, hd⟩ :=
    strptimeFull_sound t d h
  obtain ⟨hc1, hc2, hc3⟩ := ctorOk_unpack _ _ _ _ hctor
  have hy : toVal ys ≤ 9999 := by
    have := toVal_lt ys hysa
    rw [hysl] at this
    simp at this
    omega
  obtain ⟨hm1, hm2⟩ := monthRun_bounds ms hmsa hmsok
  obtain ⟨hd1, _⟩ := dayRun_bounds ds hdsa hdsok
  have hh := hourRun_bounds hhs hhsa hhok
  have hmi := minuteRun_bounds mis hmisa hmiok
  subst hd
  unfold ValidB
  simp only [Bool.and_eq_true, decide_eq_true_eq]
  exact ⟨⟨⟨⟨⟨⟨⟨⟨hc1, hy⟩, hm1⟩, hm2⟩, hd1⟩, hc2⟩, hh⟩, hmi⟩, hc3⟩

theorem strptimeDate_valid (t : List Char) (d : DateTime)
    (h : strptimeDate t = some d) : ValidB d = true := by
  obtain ⟨ys, ms, ds, hteq, hysa, hysl, hmsa, hmsok, hdsa, hdsok, hctor, hd⟩ :=
    strptimeDate_sound t d h
  obtain ⟨hc1, hc2, _⟩ := ctorOk_unpack _ _ _ _ hctor
  have hy : toVal ys ≤ 9999 := by
    have := toVal_lt ys hysa
    rw [hysl] at this
    simp at this
    omega
  obtain ⟨hm1, hm2⟩ := monthRun_bounds ms hmsa hmsok
  obtain ⟨hd1, _⟩ := dayRun_bounds ds hdsa hdsok
  subst hd
  unfold ValidB
  simp only [Bool.and_eq_true, decide_eq_true_eq]
  exact ⟨⟨⟨⟨⟨⟨⟨⟨hc1, hy⟩, hm1⟩, hm2⟩, hd1⟩, hc2⟩, by omega⟩, by omega⟩, by omega⟩

theorem full_has_colon (t : List Char) (d : DateTime)
    (h : strptimeFull t = some d) : ':' ∈ t := by
  obtain ⟨ys, ms, ds, ws, hhs, mis, ss, hteq, _⟩ := strptimeFull_sound t d h
  subst hteq
  simp

theorem date_chars (t : List Char) (d : DateTime) (h : strptimeDate t = some d) :
    ∀ c ∈ t, isDigit c = true ∨ c = '-' := by
  obtain ⟨ys, ms, ds, hteq, hysa, _, hmsa, _, hdsa, _, _, _⟩ :=
    strptimeDate_sound t d h
  subst hteq
  intro c hc
  rw [List.all_eq_true] at hysa hmsa hdsa
  simp only [List.mem_append, List.mem_cons] at hc
  rcases hc with h1 | h1 | h1 | h1 | h1
  · exact Or.inl (hysa c h1)
  · exact Or.inr h1
  · exact Or.inl (hmsa c h1)
  · exact Or.inr h1
  · exact Or.inl (hdsa c h1)

theorem date_no_colon (t : List Char) (d : DateTime) (h : strptimeDate t = some d) :
    ':' ∉ t := by
  intro hmem
  rcases date_chars t d h ':' hmem with h1 | h1
  · cases h1
  · cases h1

theorem date_no_space (t : List Char) (d : DateTime) (h : strptimeDate t = some d) :
    ' ' ∉ t := by
  intro hmem
  rcases date_chars t d h ' ' hmem with h1 | h1
  · cases h1
  · cases h1

theorem full_none_of_date (t : List Char) (d : DateTime)
    (h : strptimeDate t = some d) : strptimeFull t = none := by
  cases hf : strptimeFull t with
  | none => rfl
  | some d2 =>
    exact absurd (full_has_colon t d2 hf) (date_no_colon t d h)

theorem dropWhile_eq_self_of_head (p : Char → Bool) (l : List Char)
    (h : ∀ c, l.head? = some c → p c = false) : l.dropWhile p = l := by
  cases l with
  | nil => rfl
  | cons x xs =>
    exact List.dropWhile_cons_of_neg (by simp [h x rfl])

theorem stripChars_append_digits (a b : List Char) (hb : b.all isDigit = true)
    (hbne : b ≠ []) (hhead : ∀ c, (a ++ b).head? = some c → isWS c = false) :
    stripChars (a ++ b) = a ++ b := by
  unfold stripChars
  rw [dropWhile_eq_self_of_head isWS (a ++ b) hhead]
  rw [List.reverse_append]
  have hbr : b.reverse ≠ [] := by simpa using hbne
  rw [dropWhile_eq_self_of_head isWS (b.reverse ++ a.reverse) (by
    intro c hc
    have hc2 := head_append_of_ne_nil b.reverse a.reverse hbr c hc
    have hmem : c ∈ b := by
      have := mem_of_head? hc2
      simpa using this
    rw [List.all_eq_true] at hb
    exact digit_not_ws c (hb c hmem))]
  rw [← List.reverse_append, List.reverse_reverse]

theorem printFull_shape (d : DateTime) (h : ValidB d = true) :
    FullShape (printFull d).data d := by
  obtain ⟨h1, h2, h3, h4, h5, h6, h7, h8, h9⟩ := validB_unpack d h
  have hdim : daysInMonth d.year d.month ≤ 31 := daysInMonthB_le (isLeap d.year) d.month (by omega)
  have hy := padNum_spec 4 d.year (by norm_num; omega) (by omega)
  have hmo := padNum_spec 2 d.month (by norm_num; omega) (by omega)
  have hda := padNum_spec 2 d.day (by norm_num; omega) (by omega)
  have hho := padNum_spec 2 d.hour (by norm_num; omega) (by omega)
  have hmi := padNum_spec 2 d.minute (by norm_num; omega) (by omega)
  have hse := padNum_spec 2 d.second (by norm_num; omega) (by omega)
  refine ⟨padNum 4 d.year, padNum 2 d.month, padNum 2 d.day, [' '], padNum 2 d.hour,
    padNum 2 d.minute, padNum 2 d.second, ?_, hy.2.1, hy.1, hmo.2.1, ?_, hda.2.1, ?_,
    by simp, by simp [isWS], hho.2.1, ?_, hmi.2.1, ?_, hse.2.1, ?_, ?_, ?_⟩
  · unfold printFull
    simp
  · unfold monthRunOk
    simp only [Bool.or_eq_true, Bool.and_eq_true, beq_iff_eq, decide_eq_true_eq]
    exact Or.inl ⟨⟨hmo.1, by omega⟩, by omega⟩
  · unfold dayRunOk
    simp only [Bool.or_eq_true, Bool.and_eq_true, beq_iff_eq, decide_eq_true_eq]
    exact Or.inl ⟨⟨hda.1, by omega⟩, by omega⟩
  · unfold hourRunOk
    simp only [Bool.or_eq_true, Bool.and_eq_true, beq_iff_eq, decide_eq_true_eq]
    exact Or.inl ⟨hho.1, by omega⟩
  · unfold minuteRunOk
    simp only [Bool.or_eq_true, Bool.and_eq_true, beq_iff_eq, decide_eq_true_eq]
    exact Or.inl ⟨hmi.1, by omega⟩
  · unfold secondRunOk
    simp only [Bool.or_eq_true, Bool.and_eq_true, beq_iff_eq, decide_eq_true_eq]
    exact Or.inl ⟨hse.1, by omega⟩
  · unfold ctorOk
    simp only [Bool.and_eq_true, decide_eq_true_eq]
    rw [hy.2.2, hmo.2.2, hda.2.2, hse.2.2]
    exact ⟨⟨h1, h6⟩, h9⟩
  · rw [hy.2.2, hmo.2.2, hda.2.2, hho.2.2, hmi.2.2, hse.2.2]

theorem strptimeFull_printFull (d : DateTime) (h : ValidB d = true) :
    strptimeFull (printFull d).data = some d :=
  strptimeFull_complete _ d (printFull_shape d h)

theorem printDate_shape (d : DateTime) (h1 : 1 ≤ d.year) (h2 : d.year ≤ 9999)
    (h3 : 1 ≤ d.month) (h4 : d.month ≤ 12) (h5 : 1 ≤ d.day)
    (h6 : d.day ≤ daysInMonth d.year d.month) :
    DateShape (printDate d).data ⟨d.year, d.month, d.day, 0, 0, 0⟩ := by
  have hdim : daysInMonth d.year d.month ≤ 31 := daysInMonthB_le (isLeap d.year) d.month (by omega)
  have hy := padNum_spec 4 d.year (by norm_num; omega) (by omega)
  have hmo := padNum_spec 2 d.month (by norm_num; omega) (by omega)
  have hda := padNum_spec 2 d.day (by norm_num; omega) (by omega)
  refine ⟨padNum 4 d.year, padNum 2 d.month, padNum 2 d.day, ?_, hy.2.1, hy.1,
    hmo.2.1, ?_, hda.2.1, ?_, ?_, ?_⟩
  · unfold printDate
    simp
  · unfold monthRunOk
    simp only [Bool.or_eq_true, Bool.and_eq_true, beq_iff_eq, decide_eq_true_eq]
    exact Or.inl ⟨⟨hmo.1, by omega⟩, by omega⟩
  · unfold dayRunOk
    simp only [Bool.or_eq_true, Bool.and_eq_true, beq_iff_eq, decide_eq_true_eq]
    exact Or.inl ⟨⟨hda.1, by omega⟩, by omega⟩
  · unfold ctorOk
    simp only [Bool.and_eq_true, decide_eq_true_eq]
    rw [hy.2.2, hmo.2.2, hda.2.2]
    exact ⟨⟨h1, h6⟩, by omega⟩
  · rw [hy.2.2, hmo.2.2, hda.2.2]

theorem strptimeDate_printDate (d : DateTime) (h1 : 1 ≤ d.year) (h2 : d.year ≤ 9999)
    (h3 : 1 ≤ d.month) (h4 : d.month ≤ 12) (h5 : 1 ≤ d.day)
    (h6 : d.day ≤ daysInMonth d.year d.month) :
    strptimeDate (printDate d).data = some ⟨d.year, d.month, d.day, 0, 0, 0⟩ :=
  strptimeDate_complete _ _ (printDate_shape d h1 h2 h3 h4 h5 h6)

theorem padNum_head_digit (w n : Nat) (hn : n < 10 ^ w) (hw : 1 ≤ w) :
    ∀ c, (padNum w n).head? = some c → isDigit c = true := by
  intro c hc
  have hs := padNum_spec w n hn hw
  have hmem := mem_of_head? hc
  rw [List.all_eq_true] at hs
  exact hs.2.1 c hmem

theorem stripChars_printFull (d : DateTime) (h : ValidB d = true) :
    stripChars (printFull d).data = (printFull d).data := by
  obtain ⟨h1, h2, h3, h4, h5, h6, h7, h8, h9⟩ := validB_unpack d h
  have hse := padNum_spec 2 d.second (by norm_num; omega) (by omega)
  have hy := padNum_spec 4 d.year (by norm_num; omega) (by omega)
  have heq : (printFull d).data =
      (padNum 4 d.year ++ ('-' :: (padNum 2 d.month ++ ('-' :: (padNum 2 d.day ++
        (' ' :: (padNum 2 d.hour ++ (':' :: (padNum 2 d.minute ++ [':'])))))))))
        ++ padNum 2 d.second := by
    unfold printFull
    simp
  rw [heq]
  rw [stripChars_append_digits _ _ hse.2.1 (by
      intro hnil
      have := hse.1
      rw [hnil] at this
      simp at this) (by
    intro c hc
    have hyne : padNum 4 d.year ≠ [] := by
      intro hnil
      have := hy.1
      rw [hnil] at this
      simp at this
    rw [List.append_assoc] at hc
    have hc2 := head_append_of_ne_nil (padNum 4 d.year) _ hyne c hc
    exact digit_not_ws c (padNum_head_digit 4 d.year (by norm_num; omega) (by omega) c hc2))]

theorem stripChars_printDate (d : DateTime) (h1 : 1 ≤ d.year) (h2 : d.year ≤ 9999)
    (h3 : 1 ≤ d.month) (h4 : d.month ≤ 12) (h5 : 1 ≤ d.day)
    (h6 : d.day ≤ daysInMonth d.year d.month) :
    stripChars (printDate d).data = (printDate d).data := by
  have hdim : daysInMonth d.year d.month ≤ 31 := daysInMonthB_le (isLeap d.year) d.month (by omega)
  have hda := padNum_spec 2 d.day (by norm_num; omega) (by omega)
  have hy := padNum_spec 4 d.year (by norm_num; omega) (by omega)
  have heq : (printDate d).data =
      (padNum 4 d.year ++ ('-' :: (padNum 2 d.month ++ ['-']))) ++ padNum 2 d.day := by
    unfold printDate
    simp
  rw [heq]
  rw [stripChars_append_digits _ _ hda.2.1 (by
      intro hnil
      have := hda.1
      rw [hnil] at this
      simp at this) (by
    intro c hc
    have hyne : padNum 4 d.year ≠ [] := by
      intro hnil
      have := hy.1
      rw [hnil] at this
      simp at this
    rw [List.append_assoc] at hc
    have hc2 := head_append_of_ne_nil (padNum 4 d.year) _ hyne c hc
    exact digit_not_ws c (padNum_head_digit 4 d.year (by norm_num; omega) (by omega) c hc2))]

theorem leadsWith_refl_append (pat suf : List Char) :
    leadsWith pat (pat ++ suf) = true := by
  induction pat with
  | nil => rfl
  | cons c cs ih =>
    simp only [List.cons_append, leadsWith, beq_self_eq_true, Bool.true_and]
    exact ih

theorem occursIn_head (pat suf : List Char) : occursIn pat (pat ++ suf) = true := by
  cases hp : pat with
  | nil =>
    cases suf with
    | nil => rfl
    | cons c cs => simp [occursIn, leadsWith]
  | cons c cs =>
    simp only [List.cons_append, occursIn, Bool.or_eq_true]
    left
    have := leadsWith_refl_append (c :: cs) suf
    simpa using this

theorem occursIn_cons (pat : List Char) (c : Char) (cs : List Char)
    (h : occursIn pat cs = true) : occursIn pat (c :: cs) = true := by
  simp only [occursIn, Bool.or_eq_true]
  exact Or.inr h

theorem occursIn_append_left (pat pre l : List Char) (h : occursIn pat l = true) :
    occursIn pat (pre ++ l) = true := by
  induction pre with
  | nil => simpa using h
  | cons c cs ih => exact occursIn_cons pat c (cs ++ l) ih

theorem occursIn_middle (pre pat suf : List Char) :
    occursIn pat (pre ++ (pat ++ suf)) = true :=
  occursIn_append_left pat pre (pat ++ suf) (occursIn_head pat suf)

theorem cutLastSpace_append (a b : List Char)
    (hb : ∀ c ∈ b, (c == ' ') = false) :
    cutLastSpace (a ++ (' ' :: b)) = some (a, b) := by
  unfold cutLastSpace
  dsimp only
  have hrev : (a ++ (' ' :: b)).reverse = b.reverse ++ (' ' :: a.reverse) := by
    simp
  rw [hrev]
  have hsplit := run_split (fun c => !(c == ' ')) b.reverse (' ' :: a.reverse) (by
    simp only [List.all_eq_true]
    intro c hc
    have : c ∈ b := by simpa using hc
    simp [hb c this]) (by
    intro c hc
    simp only [List.head?_cons, Option.some.injEq] at hc
    subst hc
    simp)
  rw [hsplit.2, hsplit.1]
  simp

theorem cutLastSpace_sound (l p s : List Char) (h : cutLastSpace l = some (p, s)) :
    l = p ++ (' ' :: s) ∧ ∀ c ∈ s, (c == ' ') = false := by
  unfold cutLastSpace at h
  dsimp only at h
  split at h
  case h_1 => cases h
  case h_2 x pre heq =>
    simp only [Option.some.injEq, Prod.mk.injEq] at h
    obtain ⟨hp, hs⟩ := h
    have hx : (x == ' ') = true := by
      have := List.head?_dropWhile_not (fun c => !(c == ' ')) l.reverse
      rw [heq] at this
      simp only [List.head?_cons] at this
      simpa using this
    have hxe : x = ' ' := by simpa using hx
    subst hxe
    have hrec : l.reverse = l.reverse.takeWhile (fun c => !(c == ' ')) ++ (' ' :: pre) := by
      conv_lhs => rw [← List.takeWhile_append_dropWhile (fun c => !(c == ' ')) l.reverse]
      rw [heq]
    constructor
    · have : l = (l.reverse).reverse := by simp
      rw [this, hrec]
      simp only [List.reverse_append, List.reverse_cons]
      rw [← hp, ← hs]
      simp
    · intro c hc
      have hc2 : c ∈ l.reverse.takeWhile (fun c => !(c == ' ')) := by
        rw [← hs] at hc
        simpa using hc
      have := List.mem_takeWhile_imp hc2
      simpa using this

theorem cutLastSpace_none (l : List Char) (h : cutLastSpace l = none) :
    ∀ c ∈ l, (c == ' ') = false := by
  unfold cutLastSpace at h
  dsimp only at h
  split at h
  case h_2 => cases h
  case h_1 heq =>
    intro c hc
    have hall : ∀ x ∈ l.reverse, (fun c => !(c == ' ')) x = true := by
      rw [← List.dropWhile_eq_nil_iff]
      exact heq
    have := hall c (by simpa using hc)
    simpa using this

theorem rsplit2_three (q mid last : List Char)
    (hm : ∀ c ∈ mid, (c == ' ') = false) (hl : ∀ c ∈ last, (c == ' ') = false) :
    rsplit2 (q ++ (' ' :: (mid ++ (' ' :: last)))) = [q, mid, last] := by
  unfold rsplit2
  have h1 : q ++ (' ' :: (mid ++ (' ' :: last))) =
      (q ++ (' ' :: mid)) ++ (' ' :: last) := by simp
  rw [h1, cutLastSpace_append (q ++ (' ' :: mid)) last hl]
  dsimp only
  rw [cutLastSpace_append q mid hm]

theorem rsplit2_sound (l p0 p1 p2 : List Char) (h : rsplit2 l = [p0, p1, p2]) :
    l = p0 ++ (' ' :: (p1 ++ (' ' :: p2))) ∧
    (∀ c ∈ p1, (c == ' ') = false) ∧ (∀ c ∈ p2, (c == ' ') = false) := by
  unfold rsplit2 at h
  split at h
  case h_1 => cases h
  case h_2 x p last heq =>
    split at h
    case h_1 => cases h
    case h_2 y q mid heq2 =>
      simp only [List.cons.injEq, and_true] at h
      obtain ⟨hq, hmid, hlast⟩ := h
      obtain ⟨he1, hs1⟩ := cutLastSpace_sound l p last heq
      obtain ⟨he2, hs2⟩ := cutLastSpace_sound p q mid heq2
      subst hq
      subst hmid
      subst hlast
      refine ⟨?_, hs2, hs1⟩
      rw [he1, he2]
      simp

theorem parse_err_unknown (db : String → Option Timezone) (s n : String)
    (hdb : db n = none) :
    parse_standard_timestamp db s n = .error (.unknownTimezone n) := by
  unfold parse_standard_timestamp
  rw [hdb]

theorem parse_ok_full (db : String → Option Timezone) (n : String) (tz : Timezone)
    (s : String) (d : DateTime) (hdb : db n = some tz)
    (hf : strptimeFull (stripChars s.data) = some d) :
    parse_standard_timestamp db s n = .ok (localize tz d) := by
  unfold parse_standard_timestamp
  rw [hdb]
  dsimp only
  rw [hf]

theorem parse_ok_date (db : String → Option Timezone) (n : String) (tz : Timezone)
    (s : String) (d : DateTime) (hdb : db n = some tz)
    (hd : strptimeDate (stripChars s.data) = some d) :
    parse_standard_timestamp db s n = .ok (localize tz d) := by
  unfold parse_standard_timestamp
  rw [hdb]
  dsimp only
  rw [full_none_of_date _ _ hd, hd]

theorem parse_ok_valid (db : String → Option Timezone) (s n : String) (a : Aware)
    (h : parse_standard_timestamp db s n = .ok a) :
    ∃ tz d, db n = some tz ∧ a = localize tz d ∧ ValidB d = true := by
  unfold parse_standard_timestamp at h
  split at h
  case h_1 => cases h
  case h_2 tz heq =>
    dsimp only at h
    split at h
    case h_1 d hf =>
      simp only [Except.ok.injEq] at h
      exact ⟨tz, d, heq, h.symm, strptimeFull_valid _ _ hf⟩
    case h_2 hf =>
      split at h
      case h_1 d hd =>
        simp only [Except.ok.injEq] at h
        exact ⟨tz, d, heq, h.symm, strptimeDate_valid _ _ hd⟩
      case h_2 hd =>
        split at h
        case h_2 => cases h
        case h_1 p0 p1 p2 heq3 =>
          split at h
          case isFalse => cases h
          case isTrue hlen =>
            split at h
            case h_2 => cases h
            case h_1 d hf2 =>
              simp only [Except.ok.injEq] at h
              exact ⟨tz, d, heq, h.symm, strptimeFull_valid _ _ hf2⟩

theorem parse_printFull (db : String → Option Timezone) (n : String) (tz : Timezone)
    (d : DateTime) (hdb : db n = some tz) (hv : ValidB d = true) :
    parse_standard_timestamp db (printFull d) n = .ok (localize tz d) := by
  apply parse_ok_full db n tz (printFull d) d hdb
  rw [stripChars_printFull d hv]
  exact strptimeFull_printFull d hv

theorem parse_printDate (db : String → Option Timezone) (n : String) (tz : Timezone)
    (d : DateTime) (hdb : db n = some tz) (h1 : 1 ≤ d.year) (h2 : d.year ≤ 9999)
    (h3 : 1 ≤ d.month) (h4 : d.month ≤ 12) (h5 : 1 ≤ d.day)
    (h6 : d.day ≤ daysInMonth d.year d.month) :
    parse_standard_timestamp db (printDate d) n =
      .ok (localize tz ⟨d.year, d.month, d.day, 0, 0, 0⟩) := by
  apply parse_ok_date db n tz (printDate d) _ hdb
  rw [stripChars_printDate d h1 h2 h3 h4 h5 h6]
  exact strptimeDate_printDate d h1 h2 h3 h4 h5 h6

theorem time_difference_auto_ok (db : String → Option Timezone) (t1 t2 n : String)
    (a1 a2 : Aware)
    (h1 : parse_standard_timestamp db t1 n = .ok a1)
    (h2 : parse_standard_timestamp db t2 n = .ok a2) :
    time_difference db t1 t2 "auto" n =
      ⟨none, utcSecs a2 - utcSecs a1,
        (if utcSecs a2 - utcSecs a1 < 0 then
          "-" ++ format_timedelta (utcSecs a2 - utcSecs a1).natAbs
        else format_timedelta (utcSecs a2 - utcSecs a1).natAbs),
        decide (utcSecs a2 - utcSecs a1 < 0), none⟩ := by
  unfold time_difference
  rw [h1]
  dsimp only
  rw [h2]
  rfl

theorem time_difference_err1 (db : String → Option Timezone) (t1 t2 u n m : String)
    (h1 : parse_standard_timestamp db t1 n = .error (.invalidFormat m)) :
    time_difference db t1 t2 u n = ⟨some m, 0, "Error parsing timestamps", false, none⟩ := by
  unfold time_difference
  rw [h1]

theorem time_since_ok (now : DateTime) (db : String → Option Timezone)
    (s n : String) (tz : Timezone) (a : Aware)
    (hdb : db n = some tz) (hnowv : ValidB now = true)
    (hp : parse_standard_timestamp db s n = .ok a) :
    time_since now db s n =
      ⟨none, utcSecs (localize tz now) - utcSecs a,
        (if utcSecs (localize tz now) - utcSecs a < 0 then
          "-" ++ format_timedelta (utcSecs (localize tz now) - utcSecs a).natAbs
        else format_timedelta (utcSecs (localize tz now) - utcSecs a).natAbs) ++
          (if utcSecs (localize tz now) - utcSecs a ≥ 0 then " ago" else " from now"),
        (let seconds := utcSecs (localize tz now) - utcSecs a
         let ab := seconds.natAbs
         if seconds < 0 then "in the future"
         else if ab < 60 then "just now"
         else if ab < 3600 then "earlier"
         else if ab < 86400 then
           if a.naive.year == now.year && a.naive.month == now.month &&
               a.naive.day == now.day then "earlier today" else "yesterday"
         else if ab < 172800 then "yesterday"
         else if ab < 604800 then "this week"
         else if ab < 2592000 then "this month"
         else "a while ago")⟩ := by
  have hnow : parse_standard_timestamp db (printFull now) n = .ok (localize tz now) :=
    parse_printFull db n tz now hdb hnowv
  unfold time_since
  rw [hdb]
  dsimp only
  rw [time_difference_auto_ok db s (printFull now) n a (localize tz now) hp hnow]
  dsimp only
  rw [hp]

theorem mem_of_mem_stripChars (c : Char) (l : List Char) (h : c ∈ stripChars l) :
    c ∈ l := by
  unfold stripChars at h
  have h1 : c ∈ (l.dropWhile isWS).reverse.dropWhile isWS := by simpa using h
  have h2 : c ∈ (l.dropWhile isWS).reverse :=
    List.Sublist.mem h1 (List.dropWhile_sublist _)
  have h3 : c ∈ l.dropWhile isWS := by simpa using h2
  exact List.Sublist.mem h3 (List.dropWhile_sublist _)

theorem contains_colon_of_full (s : String) (d : DateTime)
    (hf : strptimeFull (stripChars s.data) = some d) :
    s.data.contains ':' = true := by
  have hmem := full_has_colon _ _ hf
  have : ':' ∈ s.data := mem_of_mem_stripChars ':' s.data hmem
  exact List.elem_eq_true_of_mem this

theorem add_time_ok (now : DateTime) (db : String → Option Timezone) (s : String)
    (dur : Int) (u n : String) (tz : Timezone) (a : Aware) (us : Nat)
    (hdb : db n = some tz) (hp : parse_standard_timestamp db s n = .ok a)
    (hu : unitSecsAdd u = some us)
    (hr1 : 0 ≤ (toSecs a.naive : Int) + dur * (us : Int))
    (hr2 : (toSecs a.naive : Int) + dur * (us : Int) < (maxSecs : Int)) :
    add_time now db s dur u n =
      (let is_date_only := !(s.data.contains ':')
       let r := ofSecs ((toSecs a.naive : Int) + dur * (us : Int)).toNat
       let days_diff : Int :=
         (toOrdinal r.year r.month r.day : Int) -
           (toOrdinal now.year now.month now.day : Int)
       let day_desc :=
         if days_diff == 0 then "today"
         else if days_diff == 1 then "tomorrow"
         else if days_diff == -1 then "yesterday"
         else if 1 < days_diff && days_diff ≤ 7 then
           "next " ++ weekdayName (weekdayNum r.year r.month r.day)
         else if days_diff < -1 && -7 ≤ days_diff then
           "last " ++ weekdayName (weekdayNum r.year r.month r.day)
         else longDate r
       let time_desc := String.mk (lstripZeros (time12 r).data)
       ⟨none, if is_date_only then printDate r else printFull r,
        printIso r a.offsetSecs,
        if !is_date_only then day_desc ++ " at " ++ time_desc else day_desc⟩) := by
  unfold add_time
  rw [hdb]
  dsimp only
  rw [hp]
  dsimp only
  rw [hu]
  dsimp only
  rw [if_pos (by
    simp only [Bool.and_eq_true, decide_eq_true_eq]
    exact ⟨hr1, hr2⟩)]

theorem current_datetime_unknown (now : DateTime) (db : String → Option Timezone)
    (n : String) (hdb : db n = none) :
    current_datetime now db n =
      "Error: Unknown timezone '" ++ n ++
        "'. Please use a valid timezone name like 'UTC', 'US/Pacific', or 'Europe/London'." := by
  unfold current_datetime
  rw [hdb]

theorem strptimeDate_midnight (t : List Char) (d : DateTime)
    (h : strptimeDate t = some d) : d.hour = 0 ∧ d.minute = 0 ∧ d.second = 0 := by
  obtain ⟨ys, ms, ds, _, _, _, _, _, _, _, _, hd⟩ := strptimeDate_sound t d h
  subst hd
  exact ⟨rfl, rfl, rfl⟩

/-- C9: for every operation resolving a timezone name, an unresolvable name
produces the distinct `UnknownTimezone` error kind (never equal to an
`InvalidFormat` grammar error), and the check happens before and
independently of grammar matching, so it fires for every input text,
ill-formed ones included; `current_datetime` reports the same condition
with its documented error string. -/
theorem claim_C9_unknown_timezone (db : String → Option Timezone) (s n : String)
    (now : DateTime) (hdb : db n = none) :
    parse_standard_timestamp db s n = .error (.unknownTimezone n) ∧
    (∀ m : String, PTError.unknownTimezone n ≠ PTError.invalidFormat m) ∧
    current_datetime now db n =
      "Error: Unknown timezone '" ++ n ++
        "'. Please use a valid timezone name like 'UTC', 'US/Pacific', or 'Europe/London'." := by
  refine ⟨parse_err_unknown db s n hdb, ?_, current_datetime_unknown now db n hdb⟩
  intro m h
  cases h

/-- Witness for C9 at a concrete unknown timezone and ill-formed text. -/
theorem claim_C9_witness :
    parse_standard_timestamp db0 "not a date" "America/Bogus" =
      .error (.unknownTimezone "America/Bogus") ∧
    (∀ m : String, PTError.unknownTimezone "America/Bogus" ≠ PTError.invalidFormat m) ∧
    current_datetime ⟨2024, 1, 15, 0, 0, 0⟩ db0 "America/Bogus" =
      "Error: Unknown timezone '" ++ "America/Bogus" ++
        "'. Please use a valid timezone name like 'UTC', 'US/Pacific', or 'Europe/London'." :=
  claim_C9_unknown_timezone db0 "not a date" "America/Bogus" ⟨2024, 1, 15, 0, 0, 0⟩ rfl

/-- C10: a date-only timestamp parses to local midnight, so
`timestamp_context` reports hour 0, the "late_night" bucket, the
"sleeping_time" activity and business hours false, for every date, clock
value and timezone. -/
theorem claim_C10_dateonly_context (now : DateTime) (db : String → Option Timezone)
    (s n : String) (tz : Timezone) (d : DateTime)
    (hdb : db n = some tz) (hd : strptimeDate (stripChars s.data) = some d) :
    (timestamp_context now db s n).error = none ∧
    (timestamp_context now db s n).hour_24 = 0 ∧
    (timestamp_context now db s n).time_of_day = "late_night" ∧
    (timestamp_context now db s n).typical_activity = "sleeping_time" ∧
    (timestamp_context now db s n).is_business_hours = false := by
  have hp := parse_ok_date db n tz s d hdb hd
  obtain ⟨hh0, _, _⟩ := strptimeDate_midnight _ _ hd
  unfold timestamp_context
  rw [hdb]
  dsimp only
  rw [hp]
  simp only [localize]
  simp only [hh0]
  simp

/-- Witness for C10 at a concrete date-only input. -/
theorem claim_C10_witness :
    (timestamp_context ⟨2024, 1, 15, 12, 0, 0⟩ db0 "2024-03-09" "UTC").error = none ∧
    (timestamp_context ⟨2024, 1, 15, 12, 0, 0⟩ db0 "2024-03-09" "UTC").hour_24 = 0 ∧
    (timestamp_context ⟨2024, 1, 15, 12, 0, 0⟩ db0 "2024-03-09" "UTC").time_of_day =
      "late_night" ∧
    (timestamp_context ⟨2024, 1, 15, 12, 0, 0⟩ db0 "2024-03-09" "UTC").typical_activity =
      "sleeping_time" ∧
    (timestamp_context ⟨2024, 1, 15, 12, 0, 0⟩ db0 "2024-03-09" "UTC").is_business_hours =
      false :=
  claim_C10_dateonly_context ⟨2024, 1, 15, 12, 0, 0⟩ db0 "2024-03-09" "UTC" utcTz
    ⟨2024, 3, 9, 0, 0, 0⟩ rfl (by decide)

/-- Counterexample to C3 as stated: seventeen days is at least 604800
seconds, where the claim's thresholds say "a while ago", but `time_since`
has a 30-day bucket first and answers "this month". -/
theorem claim_C3_counterexample :
    (time_since ⟨2024, 2, 1, 0, 0, 0⟩ db0 "2024-01-15 00:00:00" "UTC").context =
      "this month" ∧
    (time_since ⟨2024, 2, 1, 0, 0, 0⟩ db0 "2024-01-15 00:00:00" "UTC").seconds =
      1468800 ∧
    (604800 : Int) ≤ 1468800 ∧ "this month" ≠ "a while ago" := by
  refine ⟨by decide, by decide, by norm_num, by decide⟩

/-- C3 (amended): `time_since` labels the elapsed time by thresholding the
signed second count — negative means "in the future" (checked first), then
"just now" under a minute, "earlier" under an hour, "earlier today" or
"yesterday" under a day depending on calendar-date equality with now,
"yesterday" under two days, "this week" under a week, "this month" under
30 days (the bucket the original claim omitted), and "a while ago" beyond
— and the formatted text gets " ago" appended when the difference is
non-negative and " from now" when negative. -/
theorem claim_C3_amended (now : DateTime) (db : String → Option Timezone)
    (s n : String) (tz : Timezone) (a : Aware)
    (hdb : db n = some tz) (hnowv : ValidB now = true)
    (hp : parse_standard_timestamp db s n = .ok a) :
    (time_since now db s n).error = none ∧
    (time_since now db s n).seconds = utcSecs (localize tz now) - utcSecs a ∧
    (∀ secs, secs = utcSecs (localize tz now) - utcSecs a →
      (secs < 0 → (time_since now db s n).context = "in the future") ∧
      (0 ≤ secs → secs < 60 → (time_since now db s n).context = "just now") ∧
      (60 ≤ secs → secs < 3600 → (time_since now db s n).context = "earlier") ∧
      (3600 ≤ secs → secs < 86400 →
        ((a.naive.year = now.year ∧ a.naive.month = now.month ∧
            a.naive.day = now.day) →
          (time_since now db s n).context = "earlier today") ∧
        (¬(a.naive.year = now.year ∧ a.naive.month = now.month ∧
            a.naive.day = now.day) →
          (time_since now db s n).context = "yesterday")) ∧
      (86400 ≤ secs → secs < 172800 → (time_since now db s n).context = "yesterday") ∧
      (172800 ≤ secs → secs < 604800 → (time_since now db s n).context = "this week") ∧
      (604800 ≤ secs → secs < 2592000 → (time_since now db s n).context = "this month") ∧
      (2592000 ≤ secs → (time_since now db s n).context = "a while ago") ∧
      (0 ≤ secs → ∃ p, (time_since now db s n).formatted = p ++ " ago") ∧
      (secs < 0 → ∃ p, (time_since now db s n).formatted = p ++ " from now")) := by
  rw [time_since_ok now db s n tz a hdb hnowv hp]
  dsimp only
  refine ⟨rfl, rfl, ?_⟩
  intro secs hsecs
  rw [← hsecs]
  constructor
  · intro hneg
    rw [if_pos hneg]
  constructor
  · intro hge hlt
    rw [if_neg (by omega), if_pos (by omega)]
  constructor
  · intro hge hlt
    rw [if_neg (by omega), if_neg (by omega), if_pos (by omega)]
  constructor
  · intro hge hlt
    rw [if_neg (by omega), if_neg (by omega), if_neg (by omega), if_pos (by omega)]
    constructor
    · intro hsame
      rw [if_pos (by
        simp only [Bool.and_eq_true, beq_iff_eq]
        exact ⟨⟨hsame.1, hsame.2.1⟩, hsame.2.2⟩)]
    · intro hdiff
      rw [if_neg (by
        simp only [Bool.and_eq_true, beq_iff_eq]
        intro hc
        exact hdiff ⟨hc.1.1, hc.1.2, hc.2⟩)]
  constructor
  · intro hge hlt
    rw [if_neg (by omega), if_neg (by omega), if_neg (by omega), if_neg (by omega),
      if_pos (by omega)]
  constructor
  · intro hge hlt
    rw [if_neg (by omega), if_neg (by omega), if_neg (by omega), if_neg (by omega),
      if_neg (by omega), if_pos (by omega)]
  constructor
  · intro hge hlt
    rw [if_neg (by omega), if_neg (by omega), if_neg (by omega), if_neg (by omega),
      if_neg (by omega), if_neg (by omega), if_pos (by omega)]
  constructor
  · intro hge
    rw [if_neg (by omega), if_neg (by omega), if_neg (by omega), if_neg (by omega),
      if_neg (by omega), if_neg (by omega), if_neg (by omega)]
  constructor
  · intro hge
    exact ⟨_, by rw [if_pos (show secs ≥ 0 from hge)]⟩
  · intro hlt
    exact ⟨_, by rw [if_neg (show ¬secs ≥ 0 by omega)]⟩

/-- Witness for C3 (amended) at a concrete pair eleven days apart. -/
theorem claim_C3_witness :
    (time_since ⟨2024, 1, 26, 0, 0, 0⟩ db0 "2024-01-15 00:00:00" "UTC").error = none ∧
    (time_since ⟨2024, 1, 26, 0, 0, 0⟩ db0 "2024-01-15 00:00:00" "UTC").context =
      "this month" := by
  have h := claim_C3_amended ⟨2024, 1, 26, 0, 0, 0⟩ db0 "2024-01-15 00:00:00" "UTC"
    utcTz ⟨⟨2024, 1, 15, 0, 0, 0⟩, 0, "UTC"⟩ rfl (by decide) rfl
  refine ⟨h.1, ?_⟩
  have h2 := (h.2.2 950400 (by decide)).2.2.2.2.2.2.1 (by norm_num) (by norm_num)
  exact h2

/-- Counterexample to C4 as stated: with "now" at 2024-01-15, adding one
day to 2024-01-17 10:00:00 lands three days ahead, where the claim's
day-word rule prescribes the long "Month DD, YYYY" form, but `add_time`
has "next <weekday>" / "last <weekday>" branches for differences of 2..7
and -7..-2 days and answers "next Thursday". -/
theorem claim_C4_counterexample :
    (add_time ⟨2024, 1, 15, 0, 0, 0⟩ db0 "2024-01-17 10:00:00" 1 "days"
      "UTC").description = "next Thursday at 10:00 AM" ∧
    (toOrdinal 2024 1 18 : Int) - (toOrdinal 2024 1 15 : Int) = 3 ∧
    ((3 : Int) ≠ 0 ∧ (3 : Int) ≠ 1 ∧ (3 : Int) ≠ -1) ∧
    longDate ⟨2024, 1, 18, 10, 0, 0⟩ ++ " at 10:00 AM" =
      "January 18, 2024 at 10:00 AM" ∧
    "next Thursday at 10:00 AM" ≠ "January 18, 2024 at 10:00 AM" := by
  refine ⟨by decide, by decide, by norm_num, by decide, by decide⟩

theorem str_append_empty (s : String) : s ++ "" = s := by
  cases s with
  | mk l =>
    show String.mk (l ++ []) = String.mk l
    rw [List.append_nil]

/-- C4 (amended): `add_time`'s description compares the result's calendar
date with today's in the requested timezone: same date "today", one ahead
"tomorrow", one behind "yesterday", 2..7 days ahead "next <weekday>" and
2..7 days behind "last <weekday>" (the branches the original claim
omitted), and the long "Month DD, YYYY" form beyond that; " at H:MM AM/PM"
(12-hour, leading zero stripped) is appended exactly when the original
input text contains a time separator. -/
theorem claim_C4_amended (now : DateTime) (db : String → Option Timezone)
    (s : String) (dur : Int) (u n : String) (tz : Timezone) (a : Aware) (us : Nat)
    (res : DateTime) (dd : Int)
    (hdb : db n = some tz) (hp : parse_standard_timestamp db s n = .ok a)
    (hu : unitSecsAdd u = some us)
    (hr1 : 0 ≤ (toSecs a.naive : Int) + dur * (us : Int))
    (hr2 : (toSecs a.naive : Int) + dur * (us : Int) < (maxSecs : Int))
    (hres : res = ofSecs ((toSecs a.naive : Int) + dur * (us : Int)).toNat)
    (hdd : dd = (toOrdinal res.year res.month res.day : Int) -
      (toOrdinal now.year now.month now.day : Int)) :
    (add_time now db s dur u n).error = none ∧
    (∀ timePart, timePart = (if s.data.contains ':' then
        " at " ++ String.mk (lstripZeros (time12 res).data) else "") →
      (dd = 0 → (add_time now db s dur u n).description = "today" ++ timePart) ∧
      (dd = 1 → (add_time now db s dur u n).description = "tomorrow" ++ timePart) ∧
      (dd = -1 → (add_time now db s dur u n).description = "yesterday" ++ timePart) ∧
      (1 < dd → dd ≤ 7 → (add_time now db s dur u n).description =
        ("next " ++ weekdayName (weekdayNum res.year res.month res.day)) ++ timePart) ∧
      (-7 ≤ dd → dd < -1 → (add_time now db s dur u n).description =
        ("last " ++ weekdayName (weekdayNum res.year res.month res.day)) ++ timePart) ∧
      ((7 < dd ∨ dd < -7) → (add_time now db s dur u n).description =
        longDate res ++ timePart)) := by
  rw [add_time_ok now db s dur u n tz a us hdb hp hu hr1 hr2]
  dsimp only
  subst hres
  refine ⟨rfl, ?_⟩
  intro timePart htp
  subst hdd
  cases hc : s.data.contains ':' with
  | true =>
    rw [if_pos (by rw [hc])] at htp
    simp only [hc, Bool.not_true, Bool.not_false, eq_self_iff_true, if_true]
    subst htp
    refine ⟨?_, ?_, ?_, ?_, ?_, ?_⟩
    · intro h0
      rw [if_pos (by simp only [beq_iff_eq]; omega), String.append_assoc]
    · intro h0
      rw [if_neg (by simp only [beq_iff_eq]; omega), if_pos (by simp only [beq_iff_eq]; omega), String.append_assoc]
    · intro h0
      rw [if_neg (by simp only [beq_iff_eq]; omega), if_neg (by simp only [beq_iff_eq]; omega), if_pos (by simp only [beq_iff_eq]; omega),
        String.append_assoc]
    · intro h1 h2
      rw [if_neg (by simp only [beq_iff_eq]; omega), if_neg (by simp only [beq_iff_eq]; omega), if_neg (by simp only [beq_iff_eq]; omega),
        if_pos (by simp only [Bool.and_eq_true, decide_eq_true_eq]; exact ⟨h1, h2⟩),
        String.append_assoc]
    · intro h1 h2
      rw [if_neg (by simp only [beq_iff_eq]; omega), if_neg (by simp only [beq_iff_eq]; omega), if_neg (by simp only [beq_iff_eq]; omega),
        if_neg (by simp only [Bool.and_eq_true, decide_eq_true_eq]; omega),
        if_pos (by simp only [Bool.and_eq_true, decide_eq_true_eq]; exact ⟨h2, h1⟩),
        String.append_assoc]
    · intro h1
      rw [if_neg (by simp only [beq_iff_eq]; omega), if_neg (by simp only [beq_iff_eq]; omega), if_neg (by simp only [beq_iff_eq]; omega),
        if_neg (by simp only [Bool.and_eq_true, decide_eq_true_eq]; omega),
        if_neg (by simp only [Bool.and_eq_true, decide_eq_true_eq]; omega),
        String.append_assoc]
  | false =>
    rw [if_neg (by rw [hc]; exact Bool.false_ne_true)] at htp
    simp only [hc, Bool.not_false, Bool.not_true, Bool.false_eq_true, if_false]
    subst htp
    refine ⟨?_, ?_, ?_, ?_, ?_, ?_⟩
    · intro h0
      rw [if_pos (by simp only [beq_iff_eq]; omega)]
      rw [str_append_empty]
    · intro h0
      rw [if_neg (by simp only [beq_iff_eq]; omega), if_pos (by simp only [beq_iff_eq]; omega)]
      rw [str_append_empty]
    · intro h0
      rw [if_neg (by simp only [beq_iff_eq]; omega), if_neg (by simp only [beq_iff_eq]; omega), if_pos (by simp only [beq_iff_eq]; omega)]
      rw [str_append_empty]
    · intro h1 h2
      rw [if_neg (by simp only [beq_iff_eq]; omega), if_neg (by simp only [beq_iff_eq]; omega), if_neg (by simp only [beq_iff_eq]; omega),
        if_pos (by simp only [Bool.and_eq_true, decide_eq_true_eq]; exact ⟨h1, h2⟩)]
      rw [str_append_empty]
    · intro h1 h2
      rw [if_neg (by simp only [beq_iff_eq]; omega), if_neg (by simp only [beq_iff_eq]; omega), if_neg (by simp only [beq_iff_eq]; omega),
        if_neg (by simp only [Bool.and_eq_true, decide_eq_true_eq]; omega),
        if_pos (by simp only [Bool.and_eq_true, decide_eq_true_eq]; exact ⟨h2, h1⟩)]
      rw [str_append_empty]
    · intro h1
      rw [if_neg (by simp only [beq_iff_eq]; omega), if_neg (by simp only [beq_iff_eq]; omega), if_neg (by simp only [beq_iff_eq]; omega),
        if_neg (by simp only [Bool.and_eq_true, decide_eq_true_eq]; omega),
        if_neg (by simp only [Bool.and_eq_true, decide_eq_true_eq]; omega)]
      rw [str_append_empty]

/-- Witness for C4 (amended): three days ahead of "now" takes the
"next <weekday>" branch with the 12-hour time appended. -/
theorem claim_C4_witness :
    (add_time ⟨2024, 1, 15, 0, 0, 0⟩ db0 "2024-01-17 10:00:00" 1 "days" "UTC").error =
      none ∧
    (add_time ⟨2024, 1, 15, 0, 0, 0⟩ db0 "2024-01-17 10:00:00" 1 "days" "UTC").description =
      ("next " ++ weekdayName (weekdayNum 2024 1 18)) ++
        (" at " ++ String.mk (lstripZeros (time12 ⟨2024, 1, 18, 10, 0, 0⟩).data)) := by
  have h := claim_C4_amended ⟨2024, 1, 15, 0, 0, 0⟩ db0 "2024-01-17 10:00:00" 1 "days"
    "UTC" utcTz ⟨⟨2024, 1, 17, 10, 0, 0⟩, 0, "UTC"⟩ 86400 ⟨2024, 1, 18, 10, 0, 0⟩ 3
    rfl rfl rfl (by decide) (by decide) (by decide) (by decide)
  refine ⟨h.1, ?_⟩
  have h2 := (h.2 (" at " ++ String.mk (lstripZeros (time12 ⟨2024, 1, 18, 10, 0, 0⟩).data))
    (by rw [if_pos (by decide)])).2.2.2.1 (by norm_num) (by norm_num)
  exact h2

/-- Counterexample to C5 as stated: adding 3600 seconds to the date-only
timestamp "2024-01-15" yields the date-only result text "2024-01-15" (the
time of day is truncated away), and measuring the difference back gives 0
seconds, not 3600. -/
theorem claim_C5_counterexample :
    (add_time ⟨2024, 1, 15, 0, 0, 0⟩ db0 "2024-01-15" 3600 "seconds" "UTC").result =
      "2024-01-15" ∧
    (time_difference db0 "2024-01-15"
      ((add_time ⟨2024, 1, 15, 0, 0, 0⟩ db0 "2024-01-15" 3600 "seconds" "UTC").result)
      "auto" "UTC").seconds = 0 ∧
    (0 : Int) ≠ 3600 * 1 := by
  refine ⟨by decide, by decide, by norm_num⟩

/-- C5 (amended): the add-then-difference round trip recovers the applied
amount for full-format (not date-only) timestamps, integral applied
seconds, results inside the supported year range, and a timezone whose
localize offset agrees at the source and at the result (no DST transition
in between): `time_difference(t, add_time(t, a, u).result).seconds` equals
`a` times the unit's length in seconds. -/
theorem claim_C5_roundtrip (now : DateTime) (db : String → Option Timezone)
    (s : String) (dur : Int) (u n : String) (tz : Timezone) (d : DateTime) (us : Nat)
    (hdb : db n = some tz)
    (hf : strptimeFull (stripChars s.data) = some d)
    (hu : unitSecsAdd u = some us)
    (hr1 : 0 ≤ (toSecs d : Int) + dur * (us : Int))
    (hr2 : (toSecs d : Int) + dur * (us : Int) < (maxSecs : Int))
    (hoff : tz.off d = tz.off (ofSecs ((toSecs d : Int) + dur * (us : Int)).toNat)) :
    (add_time now db s dur u n).error = none ∧
    (add_time now db s dur u n).result =
      printFull (ofSecs ((toSecs d : Int) + dur * (us : Int)).toNat) ∧
    (time_difference db s ((add_time now db s dur u n).result) "auto" n).seconds =
      dur * (us : Int) := by
  have hp := parse_ok_full db n tz s d hdb hf
  have hcolon := contains_colon_of_full s d hf
  have hadd := add_time_ok now db s dur u n tz (localize tz d) us hdb hp hu hr1 hr2
  have hrange : ((toSecs d : Int) + dur * (us : Int)).toNat < maxSecs := by omega
  have hvres : ValidB (ofSecs ((toSecs d : Int) + dur * (us : Int)).toNat) = true :=
    ofSecs_valid _ hrange
  have hres : (add_time now db s dur u n).result =
      printFull (ofSecs ((toSecs d : Int) + dur * (us : Int)).toNat) := by
    rw [hadd]
    dsimp only
    rw [hcolon]
    rfl
  refine ⟨by rw [hadd], hres, ?_⟩
  rw [hres]
  have hpr := parse_printFull db n tz (ofSecs ((toSecs d : Int) + dur * (us : Int)).toNat)
    hdb hvres
  rw [time_difference_auto_ok db s _ n (localize tz d)
    (localize tz (ofSecs ((toSecs d : Int) + dur * (us : Int)).toNat)) hp hpr]
  dsimp only
  unfold utcSecs localize
  dsimp only
  rw [toSecs_ofSecs, ← hoff]
  omega

/-- Witness for C5 (amended) at a concrete full-format timestamp in UTC. -/
theorem claim_C5_witness :
    (add_time ⟨2024, 1, 15, 0, 0, 0⟩ db0 "2024-01-15 10:00:00" 2 "hours" "UTC").error =
      none ∧
    (time_difference db0 "2024-01-15 10:00:00"
      ((add_time ⟨2024, 1, 15, 0, 0, 0⟩ db0 "2024-01-15 10:00:00" 2 "hours" "UTC").result)
      "auto" "UTC").seconds = 2 * ((3600 : Nat) : Int) := by
  have h := claim_C5_roundtrip ⟨2024, 1, 15, 0, 0, 0⟩ db0 "2024-01-15 10:00:00" 2
    "hours" "UTC" utcTz ⟨2024, 1, 15, 10, 0, 0⟩ 3600 rfl (by decide) rfl (by decide)
    (by decide) rfl
  exact ⟨h.1, h.2.2⟩

/-- Counterexample to C6 as stated: parsing is not injective on
(text, timezone).  First, the lenient trailing-abbreviation variant maps
the two distinct texts ending in "EST" and "PST" (under the fixed timezone
"UTC") to the same Instant.  Second, under the modelled
America/New_York zone, the two texts 02:30 and 03:30 on the 2024
spring-forward day denote distinct naive datetimes a clock-hour apart yet
localize to the same Instant, because 02:30 falls in the nonexistent gap
and is given the standard-time offset. -/
theorem claim_C6_counterexample :
    parse_standard_timestamp db0 "2024-01-15 10:00:00 EST" "UTC" =
      parse_standard_timestamp db0 "2024-01-15 10:00:00 PST" "UTC" ∧
    "2024-01-15 10:00:00 EST" ≠ "2024-01-15 10:00:00 PST" ∧
    (parse_standard_timestamp db0 "2024-01-15 10:00:00 EST" "UTC" =
      .ok ⟨⟨2024, 1, 15, 10, 0, 0⟩, 0, "UTC"⟩) ∧
    parse_standard_timestamp db0 "2024-03-10 02:30:00" "America/New_York" =
      .ok ⟨⟨2024, 3, 10, 2, 30, 0⟩, -18000, "EST"⟩ ∧
    parse_standard_timestamp db0 "2024-03-10 03:30:00" "America/New_York" =
      .ok ⟨⟨2024, 3, 10, 3, 30, 0⟩, -14400, "EDT"⟩ ∧
    (⟨2024, 3, 10, 2, 30, 0⟩ : DateTime) ≠ ⟨2024, 3, 10, 3, 30, 0⟩ ∧
    utcSecs ⟨⟨2024, 3, 10, 2, 30, 0⟩, -18000, "EST"⟩ =
      utcSecs ⟨⟨2024, 3, 10, 3, 30, 0⟩, -14400, "EDT"⟩ := by
  refine ⟨rfl, by decide, rfl, rfl, rfl, by decide, by decide⟩

/-- C6 (amended): for a timezone with a constant localize offset (e.g.
UTC) `parse` is injective up to the denoted naive datetime: two inputs
whose parses carry distinct naive datetimes always map to distinct
Instants; the failures as originally stated come from the discarded
trailing abbreviation and from DST-gap localization. -/
theorem claim_C6_injective (db : String → Option Timezone) (n : String)
    (tz : Timezone) (c : Int) (s1 s2 : String) (a1 a2 : Aware)
    (hdb : db n = some tz) (hconst : ∀ x : DateTime, tz.off x = c)
    (h1 : parse_standard_timestamp db s1 n = .ok a1)
    (h2 : parse_standard_timestamp db s2 n = .ok a2)
    (hne : a1.naive ≠ a2.naive) :
    utcSecs a1 ≠ utcSecs a2 := by
  obtain ⟨tz1, d1, hdb1, ha1, hv1⟩ := parse_ok_valid db s1 n a1 h1
  obtain ⟨tz2, d2, hdb2, ha2, hv2⟩ := parse_ok_valid db s2 n a2 h2
  rw [hdb] at hdb1 hdb2
  have htz1 : tz1 = tz := by injection hdb1 with h; exact h.symm
  have htz2 : tz2 = tz := by injection hdb2 with h; exact h.symm
  subst htz1
  subst htz2
  subst ha1
  subst ha2
  unfold utcSecs localize
  dsimp only
  rw [hconst d1, hconst d2]
  intro heq
  have hsec : toSecs d1 = toSecs d2 := by omega
  exact hne (by
    show d1 = d2
    exact toSecs_inj d1 d2 hv1 hv2 hsec)

/-- Witness for C6 (amended) at two concrete UTC timestamps one second
apart. -/
theorem claim_C6_witness :
    utcSecs ⟨⟨2024, 1, 15, 10, 0, 0⟩, 0, "UTC"⟩ ≠
      utcSecs ⟨⟨2024, 1, 15, 10, 0, 1⟩, 0, "UTC"⟩ :=
  claim_C6_injective db0 "UTC" utcTz 0 "2024-01-15 10:00:00" "2024-01-15 10:00:01"
    ⟨⟨2024, 1, 15, 10, 0, 0⟩, 0, "UTC"⟩ ⟨⟨2024, 1, 15, 10, 0, 1⟩, 0, "UTC"⟩
    rfl (fun _ => rfl) rfl rfl (by decide)

theorem contains_eq_false_of_not_mem (c : Char) (l : List Char) (h : c ∉ l) :
    l.contains c = false := by
  cases hc : l.contains c with
  | false => rfl
  | true =>
    exfalso
    exact h (List.mem_of_elem_eq_true hc)

theorem printDate_data_eq (d : DateTime) :
    (printDate d).data =
      padNum 4 d.year ++ ('-' :: (padNum 2 d.month ++ ('-' :: padNum 2 d.day))) := by
  unfold printDate
  simp

theorem printDate_no_colon (d : DateTime) (h2 : d.year ≤ 9999) (h4 : d.month ≤ 12)
    (h6 : d.day ≤ 31) : (printDate d).data.contains ':' = false := by
  have hy := padNum_spec 4 d.year (by norm_num; omega) (by omega)
  have hmo := padNum_spec 2 d.month (by norm_num; omega) (by omega)
  have hda := padNum_spec 2 d.day (by norm_num; omega) (by omega)
  apply contains_eq_false_of_not_mem
  rw [printDate_data_eq]
  intro hmem
  rw [List.all_eq_true] at hy hmo hda
  simp only [List.mem_append, List.mem_cons] at hmem
  rcases hmem with h | h | h | h | h
  · cases hy.2.1 ':' h
  · cases h
  · cases hmo.2.1 ':' h
  · cases h
  · cases hda.2.1 ':' h

theorem strictDateB_printDate (d : DateTime) (h1 : 1 ≤ d.year) (h2 : d.year ≤ 9999)
    (h3 : 1 ≤ d.month) (h4 : d.month ≤ 12) (h5 : 1 ≤ d.day)
    (h6 : d.day ≤ daysInMonth d.year d.month) :
    strictDateB (printDate d).data = true := by
  have hdim : daysInMonth d.year d.month ≤ 31 :=
    daysInMonthB_le (isLeap d.year) d.month (by omega)
  have hy := padNum_spec 4 d.year (by norm_num; omega) (by omega)
  have hmo := padNum_spec 2 d.month (by norm_num; omega) (by omega)
  have hda := padNum_spec 2 d.day (by norm_num; omega) (by omega)
  rw [printDate_data_eq]
  unfold strictDateB
  dsimp only
  rw [readRun_split (padNum 4 d.year) ('-' :: (padNum 2 d.month ++ ('-' :: padNum 2 d.day)))
    hy.2.1 (by
      intro c hc
      simp only [List.head?_cons, Option.some.injEq] at hc
      subst hc
      decide)]
  dsimp only
  rw [hy.1, hy.2.2]
  split
  case h_2 x hne => exact absurd rfl (hne (padNum 2 d.month ++ ('-' :: padNum 2 d.day)))
  case h_1 r2 heq =>
    obtain rfl : padNum 2 d.month ++ ('-' :: padNum 2 d.day) = r2 := by simpa using heq
    rw [readRun_split (padNum 2 d.month) ('-' :: padNum 2 d.day) hmo.2.1 (by
        intro c hc
        simp only [List.head?_cons, Option.some.injEq] at hc
        subst hc
        decide)]
    dsimp only
    rw [hmo.1, hmo.2.2]
    split
    case h_2 x hne => exact absurd rfl (hne (padNum 2 d.day))
    case h_1 r4 heq4 =>
      obtain rfl : padNum 2 d.day = r4 := by simpa using heq4
      have hrr : readRun (padNum 2 d.day) = (padNum 2 d.day, []) := by
        have := readRun_split (padNum 2 d.day) [] hda.2.1 (by intro c hc; cases hc)
        simpa using this
      rw [hrr]
      dsimp only
      rw [hda.1, hda.2.2]
      simp [h1, h3, h4, h5, h6]

/-- Counterexample to C7 as stated: with an amount of 4,000,000 days the
arithmetic overflows the supported year range, so `add_time` returns the
error payload whose `result` field is "Error adding time" — not a
date-only-grammar string — although the input "2024-01-15" is date-only
and the unit is valid. -/
theorem claim_C7_counterexample :
    add_time ⟨2024, 1, 15, 0, 0, 0⟩ db0 "2024-01-15" 4000000 "days" "UTC" =
      ⟨some "Unexpected error: date value out of range", "Error adding time", "",
        "Error calculating result"⟩ ∧
    strictDateB "Error adding time".data = false ∧
    ("2024-01-15".data.contains ':') = false := by
  refine ⟨rfl, by decide, by decide⟩

/-- C7 (amended): for a date-only input (no ':' in the original text),
any signed amount and valid unit such that the result stays inside the
supported year range, `add_time` returns a `result` field in the date-only
grammar `YYYY-MM-DD` (the strict zero-padded shape), with no time
component and no ':' in the text. -/
theorem claim_C7_dateonly (now : DateTime) (db : String → Option Timezone)
    (s : String) (dur : Int) (u n : String) (tz : Timezone) (d : DateTime) (us : Nat)
    (hdb : db n = some tz)
    (hdate : strptimeDate (stripChars s.data) = some d)
    (hnocolon : s.data.contains ':' = false)
    (hu : unitSecsAdd u = some us)
    (hr1 : 0 ≤ (toSecs d : Int) + dur * (us : Int))
    (hr2 : (toSecs d : Int) + dur * (us : Int) < (maxSecs : Int)) :
    (add_time now db s dur u n).error = none ∧
    (add_time now db s dur u n).result =
      printDate (ofSecs ((toSecs d : Int) + dur * (us : Int)).toNat) ∧
    strictDateB (add_time now db s dur u n).result.data = true ∧
    ((add_time now db s dur u n).result.data.contains ':') = false := by
  have hp := parse_ok_date db n tz s d hdb hdate
  have hadd := add_time_ok now db s dur u n tz (localize tz d) us hdb hp hu hr1 hr2
  have hrange : ((toSecs d : Int) + dur * (us : Int)).toNat < maxSecs := by omega
  have hvres := ofSecs_valid _ hrange
  obtain ⟨v1, v2, v3, v4, v5, v6, _, _, _⟩ :=
    validB_unpack (ofSecs ((toSecs d : Int) + dur * (us : Int)).toNat) hvres
  have hres : (add_time now db s dur u n).result =
      printDate (ofSecs ((toSecs d : Int) + dur * (us : Int)).toNat) := by
    rw [hadd]
    dsimp only
    rw [hnocolon]
    rfl
  refine ⟨by rw [hadd], hres, ?_, ?_⟩
  · rw [hres]
    exact strictDateB_printDate _ v1 v2 v3 v4 v5 v6
  · rw [hres]
    exact printDate_no_colon _ v2 v4 (by
      have := daysInMonthB_le (isLeap (ofSecs ((toSecs d : Int) + dur * (us : Int)).toNat).year)
        (ofSecs ((toSecs d : Int) + dur * (us : Int)).toNat).month (by omega)
      have hdm : daysInMonth (ofSecs ((toSecs d : Int) + dur * (us : Int)).toNat).year
          (ofSecs ((toSecs d : Int) + dur * (us : Int)).toNat).month ≤ 31 := this
      omega)

/-- Witness for C7 (amended): one week added to a date-only input. -/
theorem claim_C7_witness :
    (add_time ⟨2024, 1, 15, 0, 0, 0⟩ db0 "2024-01-15" 1 "weeks" "UTC").error = none ∧
    (add_time ⟨2024, 1, 15, 0, 0, 0⟩ db0 "2024-01-15" 1 "weeks" "UTC").result =
      printDate (ofSecs ((toSecs ⟨2024, 1, 15, 0, 0, 0⟩ : Int) +
        1 * ((604800 : Nat) : Int)).toNat) ∧
    strictDateB (add_time ⟨2024, 1, 15, 0, 0, 0⟩ db0 "2024-01-15" 1 "weeks"
      "UTC").result.data = true ∧
    ((add_time ⟨2024, 1, 15, 0, 0, 0⟩ db0 "2024-01-15" 1 "weeks"
      "UTC").result.data.contains ':') = false :=
  claim_C7_dateonly ⟨2024, 1, 15, 0, 0, 0⟩ db0 "2024-01-15" 1 "weeks" "UTC" utcTz
    ⟨2024, 1, 15, 0, 0, 0⟩ 604800 rfl (by decide) (by decide) rfl (by decide) (by decide)

theorem parse_err_inv (db : String → Option Timezone) (s n m : String)
    (h : parse_standard_timestamp db s n = .error (.invalidFormat m)) :
    (∃ tz, db n = some tz) ∧ m = invalidMsg (stripChars s.data) := by
  unfold parse_standard_timestamp at h
  split at h
  case h_1 => cases h
  case h_2 tz heq =>
    refine ⟨⟨tz, heq⟩, ?_⟩
    dsimp only at h
    split at h
    case h_1 => cases h
    case h_2 =>
      split at h
      case h_1 => cases h
      case h_2 =>
        split at h
        case h_2 =>
          simp only [Except.error.injEq, PTError.invalidFormat.injEq] at h
          exact h.symm
        case h_1 p0 p1 p2 heq3 =>
          split at h
          case isFalse =>
            simp only [Except.error.injEq, PTError.invalidFormat.injEq] at h
            exact h.symm
          case isTrue =>
            split at h
            case h_1 => cases h
            case h_2 =>
              simp only [Except.error.injEq, PTError.invalidFormat.injEq] at h
              exact h.symm

/-- Counterexample to C2 as stated: "2024-1-5" does not match the
canonical zero-padded grammars (neither strictly, nor as the lenient
trailing-token variant), yet `parse_standard_timestamp` accepts it,
because `strptime` allows unpadded month and day fields. -/
theorem claim_C2_counterexample :
    parse_standard_timestamp db0 "2024-1-5" "UTC" =
      .ok ⟨⟨2024, 1, 5, 0, 0, 0⟩, 0, "UTC"⟩ ∧
    strictFullB (stripChars "2024-1-5".data) = false ∧
    strictDateB (stripChars "2024-1-5".data) = false ∧
    strictLenientB (stripChars "2024-1-5".data) = false := by
  refine ⟨rfl, by decide, by decide, by decide⟩

/-- C2 (amended): parsing succeeds exactly when the trimmed text matches
one of the formats as `strptime` implements them — the full or date-only
grammar with possibly-unpadded fields and a whitespace-run separator, and
a valid calendar date — or the lenient trailing-token variant of the full
grammar; every other string fails with the `InvalidFormat` error (no
silent coercion to a default). -/
theorem claim_C2_grammar (db : String → Option Timezone) (n : String)
    (tz : Timezone) (s : String) (hdb : db n = some tz) :
    ((∃ a, parse_standard_timestamp db s n = .ok a) ↔
      ((∃ d, FullShape (stripChars s.data) d) ∨
       (∃ d, DateShape (stripChars s.data) d) ∨
       (∃ d, LenientShape (stripChars s.data) d))) ∧
    (¬((∃ d, FullShape (stripChars s.data) d) ∨
       (∃ d, DateShape (stripChars s.data) d) ∨
       (∃ d, LenientShape (stripChars s.data) d)) →
      parse_standard_timestamp db s n =
        .error (.invalidFormat (invalidMsg (stripChars s.data)))) := by
  constructor
  · constructor
    · rintro ⟨a, ha⟩
      unfold parse_standard_timestamp at ha
      rw [hdb] at ha
      dsimp only at ha
      split at ha
      case h_1 d hf => exact Or.inl ⟨d, strptimeFull_sound _ d hf⟩
      case h_2 hf =>
        split at ha
        case h_1 d hd => exact Or.inr (Or.inl ⟨d, strptimeDate_sound _ d hd⟩)
        case h_2 hd =>
          split at ha
          case h_2 => cases ha
          case h_1 p0 p1 p2 heq3 =>
            split at ha
            case isFalse => cases ha
            case isTrue hlen =>
              split at ha
              case h_2 => cases ha
              case h_1 d hf2 =>
                obtain ⟨hsp, hs1, hs2⟩ := rsplit2_sound _ p0 p1 p2 heq3
                exact Or.inr (Or.inr ⟨d, p0, p1, p2, hsp, hs1, hs2, hlen,
                  strptimeFull_sound _ d hf2⟩)
    · intro hdisj
      rcases hdisj with ⟨d, hsh⟩ | ⟨d, hsh⟩ | ⟨d, hsh⟩
      · exact ⟨localize tz d, parse_ok_full db n tz s d hdb (strptimeFull_complete _ d hsh)⟩
      · exact ⟨localize tz d, parse_ok_date db n tz s d hdb (strptimeDate_complete _ d hsh)⟩
      · obtain ⟨p0, p1, p2, hsp, hs1, hs2, hlen, hfull⟩ := hsh
        cases hf : strptimeFull (stripChars s.data) with
        | some d2 =>
          exact ⟨localize tz d2, parse_ok_full db n tz s d2 hdb hf⟩
        | none =>
          cases hd : strptimeDate (stripChars s.data) with
          | some d2 =>
            exact ⟨localize tz d2, parse_ok_date db n tz s d2 hdb hd⟩
          | none =>
            refine ⟨localize tz d, ?_⟩
            unfold parse_standard_timestamp
            rw [hdb]
            dsimp only
            rw [hf, hd, hsp, rsplit2_three p0 p1 p2 hs1 hs2]
            dsimp only
            rw [if_pos (by simpa using hlen)]
            rw [strptimeFull_complete _ d hfull]
  · intro hnone
    have hf : strptimeFull (stripChars s.data) = none := by
      cases hx : strptimeFull (stripChars s.data) with
      | none => rfl
      | some d => exact absurd (Or.inl ⟨d, strptimeFull_sound _ d hx⟩) hnone
    have hd : strptimeDate (stripChars s.data) = none := by
      cases hx : strptimeDate (stripChars s.data) with
      | none => rfl
      | some d => exact absurd (Or.inr (Or.inl ⟨d, strptimeDate_sound _ d hx⟩)) hnone
    unfold parse_standard_timestamp
    rw [hdb]
    dsimp only
    simp only [hf, hd]
    split
    case h_2 => rfl
    case h_1 p0 p1 p2 heq3 =>
      split
      case isFalse => rfl
      case isTrue hlen =>
        split
        case h_2 => rfl
        case h_1 d hf2 =>
          obtain ⟨hsp, hs1, hs2⟩ := rsplit2_sound _ p0 p1 p2 heq3
          exact absurd (Or.inr (Or.inr ⟨d, p0, p1, p2, hsp, hs1, hs2, hlen,
            strptimeFull_sound _ d hf2⟩)) hnone

/-- Witness for C2 (amended) at the database `db0`, the zone "UTC" and the
input "2024-1-5", with the database-lookup hypothesis discharged by `rfl`. -/
theorem claim_C2_witness :
    db0 "UTC" = some utcTz ∧
    (((∃ a, parse_standard_timestamp db0 "2024-1-5" "UTC" = .ok a) ↔
      ((∃ d, FullShape (stripChars ("2024-1-5" : String).data) d) ∨
       (∃ d, DateShape (stripChars ("2024-1-5" : String).data) d) ∨
       (∃ d, LenientShape (stripChars ("2024-1-5" : String).data) d))) ∧
     (¬((∃ d, FullShape (stripChars ("2024-1-5" : String).data) d) ∨
        (∃ d, DateShape (stripChars ("2024-1-5" : String).data) d) ∨
        (∃ d, LenientShape (stripChars ("2024-1-5" : String).data) d)) →
       parse_standard_timestamp db0 "2024-1-5" "UTC" =
         .error (.invalidFormat (invalidMsg (stripChars ("2024-1-5" : String).data))))) :=
  ⟨rfl, claim_C2_grammar db0 "UTC" utcTz "2024-1-5" rfl⟩
theorem invalidMsg_data (t : List Char) :
    (invalidMsg t).data =
      ("Invalid timestamp format: '" : String).data ++ (t ++
        (("'. Expected format: 'YYYY-MM-DD HH:MM:SS' or 'YYYY-MM-DD'. " : String).data ++
         ("Examples: '2024-01-15 14:30:00' or '2024-01-15'" : String).data)) := by
  unfold invalidMsg
  simp only [String.data_append, List.append_assoc]

/-- Counterexample to C1 as stated: (a) the `InvalidFormat` message embeds
the *trimmed* text, not the original input: for the input " x " the message
does not contain the original text " x "; (b) the lenient right-split is on
the space character, not on general whitespace: the trimmed input
"2024-01-15\t14:30:00 EST" decomposes on whitespace into three tokens whose
last has at most 4 characters and whose first two, joined by a space, match
the full grammar, yet parsing fails with `InvalidFormat`. -/
theorem claim_C1_counterexample :
    (∃ m, parse_standard_timestamp db0 " x " "UTC" = .error (.invalidFormat m) ∧
      occursIn (" x " : String).data m.data = false) ∧
    (parse_standard_timestamp db0 "2024-01-15\t14:30:00 EST" "UTC" =
      .error (.invalidFormat
        (invalidMsg (stripChars ("2024-01-15\t14:30:00 EST" : String).data))) ∧
     stripChars ("2024-01-15\t14:30:00 EST" : String).data =
       ("2024-01-15" : String).data ++
         ('\t' :: (("14:30:00" : String).data ++ (' ' :: ("EST" : String).data))) ∧
     isWS '\t' = true ∧
     (("EST" : String).data).length ≤ 4 ∧
     strptimeFull (("2024-01-15" : String).data ++ (' ' :: ("14:30:00" : String).data)) =
       some ⟨2024, 1, 15, 14, 30, 0⟩) := by
  refine ⟨⟨invalidMsg (stripChars (" x " : String).data), rfl, by decide⟩,
    rfl, by decide, by decide, by decide, rfl⟩

/-- C1 (amended): `parse_standard_timestamp` implements the ordered
first-match-wins algorithm of the spec, amended in two places: the lenient
right-split is on the space character (not general whitespace) and the
`InvalidFormat` message embeds the *trimmed* text.  Concretely: (1) the
function agrees everywhere with `specParse`, the step-by-step transcription
of the (amended) spec algorithm; (2) every `InvalidFormat` message contains
the trimmed input, both grammar patterns, and both worked examples; (3) in
the lenient branch the trailing token never influences the successful
result, which depends only on the first two tokens. -/
theorem claim_C1_amended (db : String → Option Timezone) (s n : String) :
    parse_standard_timestamp db s n = specParse db s n ∧
    (∀ m, parse_standard_timestamp db s n = .error (.invalidFormat m) →
      occursIn (stripChars s.data) m.data = true ∧
      occursIn ("YYYY-MM-DD HH:MM:SS" : String).data m.data = true ∧
      occursIn ("YYYY-MM-DD" : String).data m.data = true ∧
      occursIn ("2024-01-15 14:30:00" : String).data m.data = true ∧
      occursIn ("2024-01-15" : String).data m.data = true) ∧
    (∀ tz t0 t1 t2 d, db n = some tz →
      strptimeFull (stripChars s.data) = none →
      strptimeDate (stripChars s.data) = none →
      rsplit2 (stripChars s.data) = [t0, t1, t2] →
      t2.length ≤ 4 →
      strptimeFull (t0 ++ (' ' :: t1)) = some d →
      parse_standard_timestamp db s n = .ok (localize tz d)) := by
  refine ⟨?_, ?_, ?_⟩
  · unfold parse_standard_timestamp specParse
    cases hdb : db n with
    | none => rfl
    | some tz =>
      dsimp only
      cases hf : strptimeFull (stripChars s.data) with
      | some d => simp only [hf]
      | none =>
        cases hd : strptimeDate (stripChars s.data) with
        | none => simp only [hf, hd]
        | some d =>
          obtain ⟨h1, h2, h3⟩ := strptimeDate_midnight _ _ hd
          have hde : d = ⟨d.year, d.month, d.day, 0, 0, 0⟩ := by
            cases d
            simp_all
          simp only [hf, hd]
          rw [← hde]
  · intro m hm
    have hmEq := (parse_err_inv db s n m hm).2
    subst hmEq
    rw [invalidMsg_data]
    refine ⟨occursIn_middle _ _ _, ?_, ?_, ?_, ?_⟩
    all_goals
      refine occursIn_append_left _ _ _ (occursIn_append_left _ _ _ ?_)
      decide
  · intro tz t0 t1 t2 d hdb hf hd hr hlen hf2
    unfold parse_standard_timestamp
    rw [hdb]
    dsimp only
    simp only [hf, hd, hr, hlen, hf2, if_true]

/-- Witness for C1 (amended), part (3), at the input
" 2024-01-15 14:30:00 EST " and the zone "UTC": the lenient branch fires
and the trailing token "EST" does not influence the result. -/
theorem claim_C1_witness :
    parse_standard_timestamp db0 " 2024-01-15 14:30:00 EST " "UTC" =
      .ok (localize utcTz ⟨2024, 1, 15, 14, 30, 0⟩) :=
  (claim_C1_amended db0 " 2024-01-15 14:30:00 EST " "UTC").2.2 utcTz
    ("2024-01-15" : String).data ("14:30:00" : String).data ("EST" : String).data
    ⟨2024, 1, 15, 14, 30, 0⟩ rfl rfl rfl rfl (by decide) rfl
/-- Counterexample to C8 as stated: `format_duration` does not return a
structured payload with an `error` field at all — on an unrecognized style
it returns a bare string whose failure is only detectable by its "Error"
prefix, and `current_datetime` likewise returns a bare "Error: ..." string
for an unknown timezone. -/
theorem claim_C8_counterexample :
    format_duration 0 "bogus" =
      "Error: Invalid input. Seconds must be a number. Invalid style: bogus. Must be 'full', 'compact', or 'minimal'" ∧
    leadsWith ("Error" : String).data (format_duration 0 "bogus").data = true ∧
    format_duration 75 "full" = "1 minute, 15 seconds" ∧
    leadsWith ("Error" : String).data (format_duration 75 "full").data = false ∧
    current_datetime ⟨2024, 1, 15, 12, 0, 0⟩ db0 "Mars" =
      "Error: Unknown timezone 'Mars'. Please use a valid timezone name like 'UTC', 'US/Pacific', or 'Europe/London'." := by
  refine ⟨rfl, by decide, rfl, by decide, rfl⟩

/-- C8 (amended): the dictionary-returning operations (`time_difference`,
`time_since`, `add_time`, `timestamp_context`, `parse_timestamp`) do route
every failure through the tagged `error` field — an invalid-format parse
failure surfaces verbatim there, and an unknown timezone surfaces as the
"Unexpected error" message — but the two string-returning operations do
not: `format_duration` reports an invalid style as a bare string flagged
only by an "Error" prefix, and `current_datetime` reports an unknown
timezone the same way. -/
theorem claim_C8_amended (now : DateTime) (db : String → Option Timezone)
    (t1 t2 u n style : String) (secs amount : Int) :
    (∀ m, parse_standard_timestamp db t1 n = .error (.invalidFormat m) →
      (time_difference db t1 t2 u n).error = some m ∧
      (time_since now db t1 n).error = some m ∧
      (add_time now db t1 amount u n).error = some m ∧
      (timestamp_context now db t1 n).error = some m ∧
      (parse_timestamp db t1 none n).error = some m) ∧
    (db n = none →
      (time_difference db t1 t2 u n).error = some ("Unexpected error: '" ++ n ++ "'") ∧
      (time_since now db t1 n).error = some ("Unexpected error: '" ++ n ++ "'") ∧
      (add_time now db t1 amount u n).error = some ("Unexpected error: '" ++ n ++ "'") ∧
      (timestamp_context now db t1 n).error = some ("Unexpected error: '" ++ n ++ "'") ∧
      (parse_timestamp db t1 none n).error = some ("Unexpected error: '" ++ n ++ "'")) ∧
    (style ≠ "full" → style ≠ "compact" → style ≠ "minimal" →
      format_duration secs style =
        "Error: Invalid input. Seconds must be a number. Invalid style: " ++ style ++
          ". Must be 'full', 'compact', or 'minimal'") ∧
    (db n = none →
      current_datetime now db n =
        "Error: Unknown timezone '" ++ n ++
          "'. Please use a valid timezone name like 'UTC', 'US/Pacific', or 'Europe/London'.") := by
  refine ⟨?_, ?_, ?_, ?_⟩
  · intro m hm
    obtain ⟨tz, hdb⟩ := (parse_err_inv db t1 n m hm).1
    have hTD : ∀ t2' u', (time_difference db t1 t2' u' n).error = some m := by
      intro t2' u'
      unfold time_difference
      simp only [hm]
    refine ⟨hTD t2 u, ?_, ?_, ?_, ?_⟩
    · unfold time_since
      rw [hdb]
      dsimp only
      simp only [hTD]
    · unfold add_time
      rw [hdb]
      dsimp only
      simp only [hm]
    · unfold timestamp_context
      rw [hdb]
      dsimp only
      simp only [hm]
    · unfold parse_timestamp
      dsimp only
      simp only [Option.getD, hm]
  · intro hdb
    have hpu := parse_err_unknown db t1 n hdb
    refine ⟨?_, ?_, ?_, ?_, ?_⟩
    · unfold time_difference
      simp only [hpu]
    · unfold time_since
      rw [hdb]
    · unfold add_time
      rw [hdb]
    · unfold timestamp_context
      rw [hdb]
    · unfold parse_timestamp
      dsimp only
      simp only [Option.getD, hpu]
  · intro h1 h2 h3
    have e1 : (style == "full") = false := beq_eq_false_iff_ne.mpr h1
    have e2 : (style == "compact") = false := beq_eq_false_iff_ne.mpr h2
    have e3 : (style == "minimal") = false := beq_eq_false_iff_ne.mpr h3
    unfold format_duration
    dsimp only
    simp only [e1, e2, e3, Bool.false_eq_true, if_false]
  · intro hdb
    unfold current_datetime
    rw [hdb]

/-- Witness for C8 (amended): the error field of `time_difference` carries
the parse failure verbatim, the error field of `time_since` carries the
unknown-timezone message, and `format_duration` on the style "bogus"
returns the bare error string. -/
theorem claim_C8_witness :
    (time_difference db0 "not-a-time" "x" "auto" "UTC").error =
      some (invalidMsg (stripChars ("not-a-time" : String).data)) ∧
    (time_since ⟨2024, 1, 15, 12, 0, 0⟩ db0 "2024-01-15" "Mars").error =
      some "Unexpected error: 'Mars'" ∧
    format_duration 5 "bogus" =
      "Error: Invalid input. Seconds must be a number. Invalid style: bogus. Must be 'full', 'compact', or 'minimal'" := by
  refine ⟨?_, ?_, ?_⟩
  · exact ((claim_C8_amended ⟨2024, 1, 15, 12, 0, 0⟩ db0 "not-a-time" "x" "auto" "UTC"
      "bogus" 5 0).1 (invalidMsg (stripChars ("not-a-time" : String).data)) rfl).1
  · exact ((claim_C8_amended ⟨2024, 1, 15, 12, 0, 0⟩ db0 "2024-01-15" "x" "auto" "Mars"
      "bogus" 5 0).2.1 rfl).2.1
  · exact (claim_C8_amended ⟨2024, 1, 15, 12, 0, 0⟩ db0 "x" "x" "auto" "UTC"
      "bogus" 5 0).2.2.1 (by decide) (by decide) (by decide)
